import Mathlib

/-!
Shallow embedding of the Synacor-challenge toolchain (runtime VM, assembler,
disassembler) from the Rust sources, together with theorems settling the
specification claims.

Rust `u16` values are modelled as `Nat`; every place the Rust code performs a
narrowing `as u16` cast is modelled with an explicit `% 65536`.  Fallible Rust
functions returning `Result<_, String>` are modelled with `Except String`.
A Rust panic (an abort that is not a `Result`) is modelled with a dedicated
`panic` constructor of the result type of the function in which it can occur.
-/

deriving instance DecidableEq for Except

namespace Synacor

namespace Runtime

/-- `src/runtime/data.rs`: `struct Data`.  The borrowed base image `&[u16]`
is a `List Nat`; the copy-on-write `HashMap<usize, u16>` overlay is an
association list whose lookup takes the first (most recently inserted)
binding, which models `HashMap::insert` overwriting; `[u16; 8]` registers are
a `List Nat` of length 8; the `Vec<u16>` stack pushes and pops at the list
head (the head is the top of the stack). -/
structure Data where
  memory : List Nat
  memory_changes : List (Nat × Nat)
  registers : List Nat
  stack : List Nat
deriving DecidableEq, Repr

/-- `Data::new`: fresh state over a base image, all registers zero. -/
def Data.new (memory : List Nat) : Data :=
  { memory := memory
    memory_changes := []
    registers := [0, 0, 0, 0, 0, 0, 0, 0]
    stack := [] }

/-- `Data::read_memory`: overlay first, then the base image, else an error.
Its Rust argument is typed `u16`; every call site passes a value below
65536 (the casts happen at the call sites and are modelled there). -/
def Data.read_memory (d : Data) (address : Nat) : Except String Nat :=
  match d.memory_changes.lookup address with
  | some value => .ok value
  | none =>
    match d.memory.get? address with
    | some value => .ok value
    | none => .error ("Reading from out of range address " ++ toString address ++ "!")

/-- `Data::get_number`: resolve the operand word at `i` (`i as u16` is the
`% 65536`): a literal `<= 32767` is itself, `32768..=32775` reads the
corresponding register, anything larger is an error. -/
def Data.get_number (d : Data) (i : Nat) : Except String Nat :=
  match d.read_memory (i % 65536) with
  | .error e => .error e
  | .ok value =>
    if value > 32775 then
      .error ("Number at " ++ toString i ++ " (" ++ toString value ++ ") is too large!")
    else if value > 32767 then
      .ok (d.registers.getD (value - 32768) 0)
    else
      .ok value

/-- `Data::set_number`: the word at `r` (`r as u16` is the `% 65536`) must be
a register reference; the register is then set to `value` with no bound
check on `value`. -/
def Data.set_number (d : Data) (r : Nat) (value : Nat) : Except String Data :=
  match d.read_memory (r % 65536) with
  | .error e => .error e
  | .ok register =>
    if 32767 < register ∧ register < 32776 then
      .ok { d with registers := d.registers.set (register - 32768) value }
    else
      .error ("Number at " ++ toString r ++ " (" ++ toString register ++ ") is not a register!")

/-- `Data::push_stack`. -/
def Data.push_stack (d : Data) (value : Nat) : Data :=
  { d with stack := value :: d.stack }

/-- `Data::pop_stack`: returns the popped value and the new state. -/
def Data.pop_stack (d : Data) : Except String (Nat × Data) :=
  match d.stack with
  | [] => .error "Stack was empty when popping!"
  | v :: rest => .ok (v, { d with stack := rest })

/-- `Data::write_memory`: only addresses inside the base image may be
written; the write goes to the overlay. -/
def Data.write_memory (d : Data) (address : Nat) (value : Nat) : Except String Data :=
  if address < d.memory.length then
    .ok { d with memory_changes := (address, value) :: d.memory_changes }
  else
    .error ("Writing to out of range address " ++ toString address ++ "!")

/-- `Data::length_memory`. -/
def Data.length_memory (d : Data) : Nat :=
  d.memory.length

/-- `src/runtime/vm.rs`: `enum Action`. -/
inductive Action where
  | Move (m : Nat)
  | Jump (j : Nat)
  | Halt
deriving DecidableEq, Repr

/-- Result of one opcode handler: `ok` carries the action, the (possibly
mutated) data, the remaining input bytes and the emitted output codepoints;
`err` carries the message and the (possibly mutated) data, mirroring
`Result<Action, String>` on a `&mut Data`; `panic` models a Rust panic. -/
inductive HRes where
  | ok (a : Action) (d : Data) (input : List Nat) (out : List Nat)
  | err (msg : String) (d : Data)
  | panic (msg : String)
deriving DecidableEq, Repr

/-- `type Handler`: input is the stream of not-yet-read bytes; output
codepoints are returned rather than written to a stream. -/
def Handler : Type :=
  Data → Nat → List Nat → HRes

def halt : Handler := fun d _ input =>
  let _ := input
  .ok .Halt d input []

def set : Handler := fun d i input =>
  match d.get_number (i + 2) with
  | .error e => .err e d
  | .ok v =>
    match d.set_number (i + 1) v with
    | .error e => .err e d
    | .ok d' => .ok (.Move 3) d' input []

def push : Handler := fun d i input =>
  match d.get_number (i + 1) with
  | .error e => .err e d
  | .ok v => .ok (.Move 2) (d.push_stack v) input []

def pop : Handler := fun d i input =>
  match d.pop_stack with
  | .error e => .err e d
  | .ok (value, d1) =>
    match d1.set_number (i + 1) value with
    | .error e => .err e d1
    | .ok d2 => .ok (.Move 2) d2 input []

def eq : Handler := fun d i input =>
  match d.get_number (i + 2) with
  | .error e => .err e d
  | .ok b =>
    match d.get_number (i + 3) with
    | .error e => .err e d
    | .ok c =>
      match d.set_number (i + 1) (if b = c then 1 else 0) with
      | .error e => .err e d
      | .ok d' => .ok (.Move 4) d' input []

def gt : Handler := fun d i input =>
  match d.get_number (i + 2) with
  | .error e => .err e d
  | .ok b =>
    match d.get_number (i + 3) with
    | .error e => .err e d
    | .ok c =>
      match d.set_number (i + 1) (if b > c then 1 else 0) with
      | .error e => .err e d
      | .ok d' => .ok (.Move 4) d' input []

def jmp : Handler := fun d i input =>
  match d.get_number (i + 1) with
  | .error e => .err e d
  | .ok j => .ok (.Jump j) d input []

def jt : Handler := fun d i input =>
  match d.get_number (i + 1) with
  | .error e => .err e d
  | .ok v =>
    if v ≠ 0 then
      match d.get_number (i + 2) with
      | .error e => .err e d
      | .ok j => .ok (.Jump j) d input []
    else
      .ok (.Move 3) d input []

def jf : Handler := fun d i input =>
  match d.get_number (i + 1) with
  | .error e => .err e d
  | .ok v =>
    if v = 0 then
      match d.get_number (i + 2) with
      | .error e => .err e d
      | .ok j => .ok (.Jump j) d input []
    else
      .ok (.Move 3) d input []

/-- `add`: the `u16` sum `a + b` of two operands each `<= 65535` stays below
65536 only when both are in the operand range; Rust debug builds panic on
`u16` overflow, but since `get_number` never returns a value above 65535 the
sum is at most 131070 and the reduction `% 32768` is taken before the store,
exactly as in the source (the Rust sum `a + b` does not overflow `u16` for
operand values `<= 32767`; for register contents up to 65535 it could, and
that would be a panic -- modelled here as the exact sum, a deviation that is
unreachable for byte-valid executions; see the register-bound theorems). -/
def add : Handler := fun d i input =>
  match d.get_number (i + 2) with
  | .error e => .err e d
  | .ok b =>
    match d.get_number (i + 3) with
    | .error e => .err e d
    | .ok c =>
      match d.set_number (i + 1) ((b + c) % 32768) with
      | .error e => .err e d
      | .ok d' => .ok (.Move 4) d' input []

/-- `mul`: the source widens both operands to `u64` before multiplying, so
the product is reduced modulo 2^64 (a no-op for `u16` operands) and then
modulo 32768. -/
def mul : Handler := fun d i input =>
  match d.get_number (i + 2) with
  | .error e => .err e d
  | .ok b =>
    match d.get_number (i + 3) with
    | .error e => .err e d
    | .ok c =>
      match d.set_number (i + 1) ((b * c) % 18446744073709551616 % 32768) with
      | .error e => .err e d
      | .ok d' => .ok (.Move 4) d' input []

/-- `mod_op`: the source computes `b % c` with Rust's `%` on `u16`, which
panics when the divisor is zero (there is no zero check and no error
return). -/
def mod_op : Handler := fun d i input =>
  match d.get_number (i + 2) with
  | .error e => .err e d
  | .ok b =>
    match d.get_number (i + 3) with
    | .error e => .err e d
    | .ok c =>
      if c = 0 then
        .panic "attempt to calculate the remainder with a divisor of zero"
      else
        match d.set_number (i + 1) (b % c) with
        | .error e => .err e d
        | .ok d' => .ok (.Move 4) d' input []

def and : Handler := fun d i input =>
  match d.get_number (i + 2) with
  | .error e => .err e d
  | .ok b =>
    match d.get_number (i + 3) with
    | .error e => .err e d
    | .ok c =>
      match d.set_number (i + 1) (b &&& c) with
      | .error e => .err e d
      | .ok d' => .ok (.Move 4) d' input []

def or : Handler := fun d i input =>
  match d.get_number (i + 2) with
  | .error e => .err e d
  | .ok b =>
    match d.get_number (i + 3) with
    | .error e => .err e d
    | .ok c =>
      match d.set_number (i + 1) (b ||| c) with
      | .error e => .err e d
      | .ok d' => .ok (.Move 4) d' input []

def not : Handler := fun d i input =>
  match d.get_number (i + 2) with
  | .error e => .err e d
  | .ok v =>
    match d.set_number (i + 1) (0x7FFF ^^^ v) with
    | .error e => .err e d
    | .ok d' => .ok (.Move 3) d' input []

/-- `rmem`: note the second operand resolves to an address whose raw memory
word is read with `read_memory` (not `get_number`) and stored into the
destination register verbatim, with no bound check. -/
def rmem : Handler := fun d i input =>
  match d.get_number (i + 2) with
  | .error e => .err e d
  | .ok address =>
    match d.read_memory address with
    | .error e => .err e d
    | .ok value =>
      match d.set_number (i + 1) value with
      | .error e => .err e d
      | .ok d' => .ok (.Move 3) d' input []

def wmem : Handler := fun d i input =>
  match d.get_number (i + 1) with
  | .error e => .err e d
  | .ok address =>
    match d.get_number (i + 2) with
    | .error e => .err e d
    | .ok value =>
      match d.write_memory address value with
      | .error e => .err e d
      | .ok d' => .ok (.Move 3) d' input []

/-- `call`: pushes `(i + 2) as u16` first; a failure resolving the jump
target leaves the pushed value on the stack. -/
def call : Handler := fun d i input =>
  let d1 := d.push_stack ((i + 2) % 65536)
  match d1.get_number (i + 1) with
  | .error e => .err e d1
  | .ok j => .ok (.Jump j) d1 input []

/-- `ret`: a failing pop is not an error but a clean halt. -/
def ret : Handler := fun d _ input =>
  match d.pop_stack with
  | .ok (ret_addr, d1) => .ok (.Jump ret_addr) d1 input []
  | .error _ => .ok .Halt d input []

/-- `out`: `String::from_utf16(&[ascii])` fails exactly when the single code
unit is a surrogate (0xD800..=0xDFFF); otherwise the character with that
codepoint is written.  The emitted codepoint is recorded; stream write
failures are not modelled. -/
def out : Handler := fun d i input =>
  match d.get_number (i + 1) with
  | .error e => .err e d
  | .ok ascii =>
    if 0xD800 ≤ ascii ∧ ascii ≤ 0xDFFF then
      .err ("Could not encode " ++ toString ascii ++ " as a character!") d
    else
      .ok (.Move 2) d input [ascii]

/-- `in_op`: reads one byte; CR (13) is discarded and the read retried
(recursively); end of input is a clean halt; otherwise the byte is stored
via `set_number`.  Read failures (`Err` from `read`) are not modelled: the
input is the exact byte stream. -/
def in_op (d : Data) (i : Nat) : List Nat → HRes
  | [] => .ok .Halt d [] []
  | b :: rest =>
    if b = 13 then
      in_op d i rest
    else
      match d.set_number (i + 1) b with
      | .error e => .err e d
      | .ok d' => .ok (.Move 2) d' rest []

def noop : Handler := fun d _ input =>
  .ok (.Move 1) d input []

/-- `unknown`: any opcode not in `0..=21`; re-resolves the opcode word just
for the message (the `?` would propagate a resolution error, but the caller
already resolved it successfully). -/
def unknown : Handler := fun d i input =>
  let _ := input
  match d.get_number i with
  | .error e => .err e d
  | .ok v => .err ("Unknown opcode " ++ toString v ++ "!") d

/-- `get_handler`: dispatch by opcode number. -/
def get_handler (opcode : Nat) : Handler :=
  match opcode with
  | 0 => halt
  | 1 => set
  | 2 => push
  | 3 => pop
  | 4 => eq
  | 5 => gt
  | 6 => jmp
  | 7 => jt
  | 8 => jf
  | 9 => add
  | 10 => mul
  | 11 => mod_op
  | 12 => and
  | 13 => or
  | 14 => not
  | 15 => rmem
  | 16 => wmem
  | 17 => call
  | 18 => ret
  | 19 => out
  | 20 => in_op
  | 21 => noop
  | _ => unknown

/-- `struct VM`. -/
structure VM where
  data : Data
  pointer : Nat
deriving DecidableEq, Repr

def VM.new (data : Data) : VM :=
  { data := data, pointer := 0 }

/-- Result of `VM::step`: `ok cont vm' input' out` models `Ok(cont)` with
the mutated machine, the unread input and the emitted codepoints; `err`
models `Err(msg)` (the machine keeps any mutations the handler made before
failing); `panic` models a Rust panic (the opcode fetch `unwrap`, or `mod`
by zero). -/
inductive StepRes where
  | ok (cont : Bool) (vm : VM) (input : List Nat) (out : List Nat)
  | err (msg : String) (vm : VM) (input : List Nat)
  | panic (msg : String)
deriving DecidableEq, Repr

/-- `VM::step`: bounds-check the pointer, fetch the opcode with
`get_number(pointer).unwrap()` (a resolution failure there is a panic),
dispatch, then apply the returned action. -/
def step (vm : VM) (input : List Nat) : StepRes :=
  if vm.pointer ≥ vm.data.length_memory then
    .err ("Out of range " ++ toString vm.pointer ++ "!") vm input
  else
    match vm.data.get_number vm.pointer with
    | .error e => .panic e
    | .ok opcode =>
      match get_handler opcode vm.data vm.pointer input with
      | .ok (.Move m) d' input' o => .ok true { data := d', pointer := vm.pointer + m } input' o
      | .ok (.Jump j) d' input' o => .ok true { data := d', pointer := j } input' o
      | .ok .Halt d' input' o => .ok false { data := d', pointer := vm.pointer } input' o
      | .err e d' =>
        .err ("Error at " ++ toString vm.pointer ++ ":\n\t" ++ e)
          { data := d', pointer := vm.pointer } input
      | .panic e => .panic e

/-- Result of `VM::run` (the cooperative cancellation flag is modelled as
never set; the fuel bounds the number of steps and is absent from the
source, whose loop can diverge). -/
inductive RunRes where
  | done (vm : VM) (input : List Nat) (out : List Nat)
  | errored (msg : String)
  | panicked (msg : String)
  | outOfFuel
deriving DecidableEq, Repr

/-- `VM::run`: loop `step` until it reports a halt (`Ok(false)`) or fails,
accumulating output. -/
def run : Nat → VM → List Nat → List Nat → RunRes
  | 0, _, _, _ => .outOfFuel
  | fuel + 1, vm, input, acc =>
    match step vm input with
    | .ok true vm' input' o => run fuel vm' input' (acc ++ o)
    | .ok false vm' input' o => .done vm' input' (acc ++ o)
    | .err msg _ _ => .errored msg
    | .panic msg => .panicked msg

/-- States reachable from a freshly loaded image (all registers zero) by
successful (`Ok`) steps, under arbitrary input bytes. -/
inductive Reachable (image : List Nat) : VM → Prop where
  | init : Reachable image (VM.new (Data.new image))
  | next {vm vm' : VM} {input input' : List Nat} {c : Bool} {o : List Nat} :
      Reachable image vm → step vm input = .ok c vm' input' o → Reachable image vm'

/-- UTF-8 encoding of a scalar codepoint below 0x10000 that is not a
surrogate (the only codepoints `out` can emit): used to state claims about
the bytes on the output stream. -/
def utf8Bytes (v : Nat) : List Nat :=
  if v < 0x80 then
    [v]
  else if v < 0x800 then
    [0xC0 + v / 64, 0x80 + v % 64]
  else
    [0xE0 + v / 4096, 0x80 + v / 64 % 64, 0x80 + v % 64]

/-- Specification predicate: every register holds a word in `0..=32767`. -/
abbrev RegBound (d : Data) : Prop :=
  ∀ r ∈ d.registers, r ≤ 32767

/-- Specification predicate: every stack entry is in `0..=32767`. -/
abbrev StackBound (d : Data) : Prop :=
  ∀ s ∈ d.stack, s ≤ 32767

/-- Specification predicate: the input stream consists of bytes (Rust `u8`
values, `0..=255`). -/
abbrev ByteInput (input : List Nat) : Prop :=
  ∀ b ∈ input, b ≤ 255

/-- A handler whose successful runs preserve the register bound, given
bounded registers, stack and input bytes on entry. -/
def HandlerKeepsRegs (h : Handler) : Prop :=
  ∀ d i input a d' input' o, RegBound d → StackBound d → ByteInput input →
    h d i input = .ok a d' input' o → RegBound d'

end Runtime

namespace Decomp

/-- `src/compiler/decompilation.rs`: `decompile` walks the image from the
front, printing one line per instruction with `writeln!`; each printed line
is collected here without its trailing newline.  The per-opcode handlers
index `memory[pointer + k]` directly, which panics when an operand runs past
the end of the image: that panic is modelled as `none`.  Unknown opcode
words print as `addr:\tword` and consume one word.  The handler bodies are
inlined into the dispatch (`get_handler`'s 22 arms plus the catch-all) so
that the recursion is visibly decreasing. -/
def decompileFrom (memory : List Nat) (pointer : Nat) : Option (List String) :=
  if _h : pointer < memory.length then
    match memory.getD pointer 0 with
    | 0 =>
      match decompileFrom memory (pointer + 1) with
      | none => none
      | some rest => some ((toString pointer ++ ":\thalt") :: rest)
    | 1 =>
      match memory.get? (pointer + 1), memory.get? (pointer + 2) with
      | some a, some b =>
        match decompileFrom memory (pointer + 3) with
        | none => none
        | some rest =>
          some ((toString pointer ++ ":\tset\t" ++ toString a ++ "\t" ++ toString b) :: rest)
      | _, _ => none
    | 2 =>
      match memory.get? (pointer + 1) with
      | some a =>
        match decompileFrom memory (pointer + 2) with
        | none => none
        | some rest => some ((toString pointer ++ ":\tpush\t" ++ toString a) :: rest)
      | none => none
    | 3 =>
      match memory.get? (pointer + 1) with
      | some a =>
        match decompileFrom memory (pointer + 2) with
        | none => none
        | some rest => some ((toString pointer ++ ":\tpop\t" ++ toString a) :: rest)
      | none => none
    | 4 =>
      match memory.get? (pointer + 1), memory.get? (pointer + 2), memory.get? (pointer + 3) with
      | some a, some b, some c =>
        match decompileFrom memory (pointer + 4) with
        | none => none
        | some rest =>
          some ((toString pointer ++ ":\teq\t" ++ toString a ++ "\t" ++ toString b ++ "\t" ++
            toString c) :: rest)
      | _, _, _ => none
    | 5 =>
      match memory.get? (pointer + 1), memory.get? (pointer + 2), memory.get? (pointer + 3) with
      | some a, some b, some c =>
        match decompileFrom memory (pointer + 4) with
        | none => none
        | some rest =>
          some ((toString pointer ++ ":\tgt\t" ++ toString a ++ "\t" ++ toString b ++ "\t" ++
            toString c) :: rest)
      | _, _, _ => none
    | 6 =>
      match memory.get? (pointer + 1) with
      | some a =>
        match decompileFrom memory (pointer + 2) with
        | none => none
        | some rest => some ((toString pointer ++ ":\tjmp\t" ++ toString a) :: rest)
      | none => none
    | 7 =>
      match memory.get? (pointer + 1), memory.get? (pointer + 2) with
      | some a, some b =>
        match decompileFrom memory (pointer + 3) with
        | none => none
        | some rest =>
          some ((toString pointer ++ ":\tjt\t" ++ toString a ++ "\t" ++ toString b) :: rest)
      | _, _ => none
    | 8 =>
      match memory.get? (pointer + 1), memory.get? (pointer + 2) with
      | some a, some b =>
        match decompileFrom memory (pointer + 3) with
        | none => none
        | some rest =>
          some ((toString pointer ++ ":\tjf\t" ++ toString a ++ "\t" ++ toString b) :: rest)
      | _, _ => none
    | 9 =>
      match memory.get? (pointer + 1), memory.get? (pointer + 2), memory.get? (pointer + 3) with
      | some a, some b, some c =>
        match decompileFrom memory (pointer + 4) with
        | none => none
        | some rest =>
          some ((toString pointer ++ ":\tadd\t" ++ toString a ++ "\t" ++ toString b ++ "\t" ++
            toString c) :: rest)
      | _, _, _ => none
    | 10 =>
      match memory.get? (pointer + 1), memory.get? (pointer + 2), memory.get? (pointer + 3) with
      | some a, some b, some c =>
        match decompileFrom memory (pointer + 4) with
        | none => none
        | some rest =>
          some ((toString pointer ++ ":\tmul\t" ++ toString a ++ "\t" ++ toString b ++ "\t" ++
            toString c) :: rest)
      | _, _, _ => none
    | 11 =>
      match memory.get? (pointer + 1), memory.get? (pointer + 2), memory.get? (pointer + 3) with
      | some a, some b, some c =>
        match decompileFrom memory (pointer + 4) with
        | none => none
        | some rest =>
          some ((toString pointer ++ ":\tmod\t" ++ toString a ++ "\t" ++ toString b ++ "\t" ++
            toString c) :: rest)
      | _, _, _ => none
    | 12 =>
      match memory.get? (pointer + 1), memory.get? (pointer + 2), memory.get? (pointer + 3) with
      | some a, some b, some c =>
        match decompileFrom memory (pointer + 4) with
        | none => none
        | some rest =>
          some ((toString pointer ++ ":\tand\t" ++ toString a ++ "\t" ++ toString b ++ "\t" ++
            toString c) :: rest)
      | _, _, _ => none
    | 13 =>
      match memory.get? (pointer + 1), memory.get? (pointer + 2), memory.get? (pointer + 3) with
      | some a, some b, some c =>
        match decompileFrom memory (pointer + 4) with
        | none => none
        | some rest =>
          some ((toString pointer ++ ":\tor\t" ++ toString a ++ "\t" ++ toString b ++ "\t" ++
            toString c) :: rest)
      | _, _, _ => none
    | 14 =>
      match memory.get? (pointer + 1), memory.get? (pointer + 2) with
      | some a, some b =>
        match decompileFrom memory (pointer + 3) with
        | none => none
        | some rest =>
          some ((toString pointer ++ ":\tnot\t" ++ toString a ++ "\t" ++ toString b) :: rest)
      | _, _ => none
    | 15 =>
      match memory.get? (pointer + 1), memory.get? (pointer + 2) with
      | some a, some b =>
        match decompileFrom memory (pointer + 3) with
        | none => none
        | some rest =>
          some ((toString pointer ++ ":\trmem\t" ++ toString a ++ "\t" ++ toString b) :: rest)
      | _, _ => none
    | 16 =>
      match memory.get? (pointer + 1), memory.get? (pointer + 2) with
      | some a, some b =>
        match decompileFrom memory (pointer + 3) with
        | none => none
        | some rest =>
          some ((toString pointer ++ ":\twmem\t" ++ toString a ++ "\t" ++ toString b) :: rest)
      | _, _ => none
    | 17 =>
      match memory.get? (pointer + 1) with
      | some a =>
        match decompileFrom memory (pointer + 2) with
        | none => none
        | some rest => some ((toString pointer ++ ":\tcall\t" ++ toString a) :: rest)
      | none => none
    | 18 =>
      match decompileFrom memory (pointer + 1) with
      | none => none
      | some rest => some ((toString pointer ++ ":\tret") :: rest)
    | 19 =>
      match memory.get? (pointer + 1) with
      | some a =>
        match decompileFrom memory (pointer + 2) with
        | none => none
        | some rest => some ((toString pointer ++ ":\tout\t" ++ toString a) :: rest)
      | none => none
    | 20 =>
      match memory.get? (pointer + 1) with
      | some a =>
        match decompileFrom memory (pointer + 2) with
        | none => none
        | some rest => some ((toString pointer ++ ":\tin\t" ++ toString a) :: rest)
      | none => none
    | 21 =>
      match decompileFrom memory (pointer + 1) with
      | none => none
      | some rest => some ((toString pointer ++ ":\tnoop") :: rest)
    | w =>
      match decompileFrom memory (pointer + 1) with
      | none => none
      | some rest => some ((toString pointer ++ ":\t" ++ toString w) :: rest)
  else
    some []
termination_by memory.length - pointer
decreasing_by all_goals omega

/-- `decompile`: the full walk from address 0. -/
def decompile (memory : List Nat) : Option (List String) :=
  decompileFrom memory 0

end Decomp

namespace AsmParse

/-- `src/compiler/compilation/parser.rs`: `enum Token`. -/
inductive Token where
  | Label (s : String)
  | Value (v : Nat)
deriving DecidableEq, Repr

/-- `enum Instruction`.  The enum declared in `parser.rs` has exactly the 22
variants `Halt` .. `Noop`; `compiler.rs`'s `compile_instruction` additionally
matches an `Instruction::Data` variant (and implements its emission), which
the declared enum does not have -- the crate does not compile as given.
`Data` is included here so that `compiler.rs` can be embedded; the parser
never constructs it. -/
inductive Instruction where
  | Halt
  | Set (a b : Token)
  | Push (a : Token)
  | Pop (a : Token)
  | Eq (a b c : Token)
  | Gt (a b c : Token)
  | Jmp (a : Token)
  | Jt (a b : Token)
  | Jf (a b : Token)
  | Add (a b c : Token)
  | Mul (a b c : Token)
  | Mod (a b c : Token)
  | And (a b c : Token)
  | Or (a b c : Token)
  | Not (a b : Token)
  | RMem (a b : Token)
  | WMem (a b : Token)
  | Call (a : Token)
  | Ret
  | Out (a : Token)
  | In (a : Token)
  | Noop
  | Data (a : Token)
deriving DecidableEq, Repr

/-- `struct ParsedInstruction`. -/
structure ParsedInstruction where
  line_number : Nat
  instruction : Instruction
deriving DecidableEq, Repr

/-- `struct Parsing`.  Both `HashMap`s are association lists; a new binding
is consed to the front and lookup takes the first match, which models
`HashMap::insert` overwriting an existing key. -/
structure Parsing where
  instructions : List (Nat × ParsedInstruction)
  labels : List (String × Nat)
deriving DecidableEq, Repr

/-- The `[Option<Token>; 3]` argument array. -/
abbrev Args : Type :=
  Option Token × Option Token × Option Token

/-- `type Constructor`. -/
abbrev Constructor : Type :=
  Args → Except String Instruction

/-- `parser.rs` `get_size`.  The Rust function has no `Data` arm (the enum
it matches has no such variant); the size 1 given to `Data` here follows
`compiler.rs`'s one-word emission and the specification. -/
def get_size (instruction : Instruction) : Nat :=
  match instruction with
  | .Halt => 1
  | .Set _ _ => 3
  | .Push _ => 2
  | .Pop _ => 2
  | .Eq _ _ _ => 4
  | .Gt _ _ _ => 4
  | .Jmp _ => 2
  | .Jt _ _ => 3
  | .Jf _ _ => 3
  | .Add _ _ _ => 4
  | .Mul _ _ _ => 4
  | .Mod _ _ _ => 4
  | .And _ _ _ => 4
  | .Or _ _ _ => 4
  | .Not _ _ => 3
  | .RMem _ _ => 3
  | .WMem _ _ => 3
  | .Call _ => 2
  | .Ret => 1
  | .Out _ => 2
  | .In _ => 2
  | .Noop => 1
  | .Data _ => 1

def halt (args : Args) : Except String Instruction :=
  if args = (none, none, none) then .ok .Halt else .error "halt takes no arguments"

def set (args : Args) : Except String Instruction :=
  match args with
  | (some a1, some a2, none) => .ok (.Set a1 a2)
  | _ => .error "set takes two arguments"

def push (args : Args) : Except String Instruction :=
  match args with
  | (some a1, none, none) => .ok (.Push a1)
  | _ => .error "push takes one arguments"

def pop (args : Args) : Except String Instruction :=
  match args with
  | (some a1, none, none) => .ok (.Pop a1)
  | _ => .error "pop takes one argument"

def eq (args : Args) : Except String Instruction :=
  match args with
  | (some a1, some a2, some a3) => .ok (.Eq a1 a2 a3)
  | _ => .error "eq takes three arguments"

def gt (args : Args) : Except String Instruction :=
  match args with
  | (some a1, some a2, some a3) => .ok (.Gt a1 a2 a3)
  | _ => .error "gt takes three arguments"

def jmp (args : Args) : Except String Instruction :=
  match args with
  | (some a1, none, none) => .ok (.Jmp a1)
  | _ => .error "jmp takes one argument"

def jt (args : Args) : Except String Instruction :=
  match args with
  | (some a1, some a2, none) => .ok (.Jt a1 a2)
  | _ => .error "jt takes two arguments"

def jf (args : Args) : Except String Instruction :=
  match args with
  | (some a1, some a2, none) => .ok (.Jf a1 a2)
  | _ => .error "jf takes two arguments"

def add (args : Args) : Except String Instruction :=
  match args with
  | (some a1, some a2, some a3) => .ok (.Add a1 a2 a3)
  | _ => .error "add takes three arguments"

def mul (args : Args) : Except String Instruction :=
  match args with
  | (some a1, some a2, some a3) => .ok (.Mul a1 a2 a3)
  | _ => .error "mul takes three arguments"

def mod_op (args : Args) : Except String Instruction :=
  match args with
  | (some a1, some a2, some a3) => .ok (.Mod a1 a2 a3)
  | _ => .error "mod takes three arguments"

def and (args : Args) : Except String Instruction :=
  match args with
  | (some a1, some a2, some a3) => .ok (.And a1 a2 a3)
  | _ => .error "and takes three arguments"

def or (args : Args) : Except String Instruction :=
  match args with
  | (some a1, some a2, some a3) => .ok (.Or a1 a2 a3)
  | _ => .error "or takes three arguments"

def not (args : Args) : Except String Instruction :=
  match args with
  | (some a1, some a2, none) => .ok (.Not a1 a2)
  | _ => .error "not takes two arguments"

def rmem (args : Args) : Except String Instruction :=
  match args with
  | (some a1, some a2, none) => .ok (.RMem a1 a2)
  | _ => .error "rmem takes two arguments"

def wmem (args : Args) : Except String Instruction :=
  match args with
  | (some a1, some a2, none) => .ok (.WMem a1 a2)
  | _ => .error "wmem takes two arguments"

def call (args : Args) : Except String Instruction :=
  match args with
  | (some a1, none, none) => .ok (.Call a1)
  | _ => .error "call takes one argument"

def ret (args : Args) : Except String Instruction :=
  if args = (none, none, none) then .ok .Ret else .error "ret takes no arguments"

def out (args : Args) : Except String Instruction :=
  match args with
  | (some a1, none, none) => .ok (.Out a1)
  | _ => .error "out takes one argument"

def in_op (args : Args) : Except String Instruction :=
  match args with
  | (some a1, none, none) => .ok (.In a1)
  | _ => .error "in takes one argument"

def noop (args : Args) : Except String Instruction :=
  if args = (none, none, none) then .ok .Noop else .error "noop takes no arguments"

/-- `get_constructor`: the mnemonic table.  Note it maps the mnemonic
`"mult"` to the opcode-10 constructor and has no entry for `"mul"`, and no
entry for `"data"`. -/
def get_constructor (op : String) : Option Constructor :=
  match op with
  | "halt" => some halt
  | "set" => some set
  | "push" => some push
  | "pop" => some pop
  | "eq" => some eq
  | "gt" => some gt
  | "jmp" => some jmp
  | "jt" => some jt
  | "jf" => some jf
  | "add" => some add
  | "mult" => some mul
  | "mod" => some mod_op
  | "and" => some and
  | "or" => some or
  | "not" => some not
  | "rmem" => some rmem
  | "wmem" => some wmem
  | "call" => some call
  | "ret" => some ret
  | "out" => some out
  | "in" => some in_op
  | "noop" => some noop
  | _ => none

/-- Rust `char::is_whitespace` restricted to the characters that can occur
in the sources this development manipulates (ASCII whitespace). -/
def isWs (c : Char) : Bool :=
  c = ' ' ∨ c = '\t' ∨ c = '\n' ∨ c = '\r'

/-- `str::split_whitespace` on a character list: maximal runs of
non-whitespace characters. -/
def splitWs : List Char → List Char → List (List Char)
  | [], [] => []
  | [], cur => [cur.reverse]
  | c :: rest, cur =>
    if isWs c then
      match cur with
      | [] => splitWs rest []
      | _ => cur.reverse :: splitWs rest []
    else
      splitWs rest (c :: cur)

/-- `line.split_whitespace()` as a token list. -/
def tokenize (line : String) : List String :=
  (splitWs line.data []).map (fun cs => String.mk cs)

/-- Decimal digit accumulation: `none` on the first non-digit. -/
def digitsToNat : List Char → Nat → Option Nat
  | [], acc => some acc
  | c :: rest, acc =>
    if c.isDigit then digitsToNat rest (acc * 10 + (c.toNat - 48)) else none

/-- Rust `str::parse::<u16>()`: an optional leading `+`, then one or more
decimal digits, rejecting values above 65535. -/
def parseU16 (s : String) : Option Nat :=
  let cs := match s.data with
    | '+' :: rest => rest
    | cs => cs
  match cs with
  | [] => none
  | _ =>
    match digitsToNat cs 0 with
    | some v => if v ≤ 65535 then some v else none
    | none => none

/-- `arguments[argument_count] = Some(arg)`: the array has three slots, so
an `argument_count` of 3 or more is an index-out-of-bounds panic,
modelled as `none`. -/
def setArg (args : Args) (count : Nat) (t : Token) : Option Args :=
  match count with
  | 0 => some (some t, args.2.1, args.2.2)
  | 1 => some (args.1, some t, args.2.2)
  | 2 => some (args.1, args.2.1, some t)
  | _ => none

/-- Outcome of scanning one line's tokens. -/
inductive PartsRes where
  | done (label : Option String) (con : Option Constructor) (args : Args)
  | fail (msg : String)
  | panic

/-- The `for part in line.split_whitespace()` loop body of `parse`:
comments stop the scan, label tokens are validated or recorded, the first
other token selects the constructor, the rest become arguments. -/
def parseParts (pointer line_number : Nat) :
    List String → Option String → Option Constructor → Args → Nat → PartsRes
  | [], label, con, args, _ => .done label con args
  | part :: rest, label, con, args, argument_count =>
    if part.data.head? = some '#' then
      .done label con args
    else if part.data.getLast? = some ':' then
      match label with
      | none =>
        let name := String.mk part.data.dropLast
        match parseU16 name with
        | some pointer_label =>
          if pointer_label ≠ pointer then
            .fail ("Pointer label was " ++ toString pointer_label ++ " but should have been " ++
              toString pointer ++ " on line " ++ toString line_number ++ ".")
          else
            parseParts pointer line_number rest label con args argument_count
        | none =>
          parseParts pointer line_number rest (some name) con args argument_count
      | some _ =>
        .fail ("Only one label per line! Detected a \":\" in an unusual place on line " ++
          toString line_number ++ ".")
    else
      match con with
      | none =>
        match get_constructor part with
        | none => .fail ("Unknown op \"" ++ part ++ "\" at line " ++ toString line_number ++ ".")
        | some c => parseParts pointer line_number rest label (some c) args argument_count
      | some _ =>
        let arg := match parseU16 part with
          | some value => Token.Value value
          | none => Token.Label part
        match setArg args argument_count arg with
        | none => .panic
        | some args' => parseParts pointer line_number rest label con args' (argument_count + 1)

/-- Outcome of `parse`. -/
inductive ParseRes where
  | ok (p : Parsing)
  | err (msg : String)
  | panic
deriving DecidableEq

/-- The line loop of `parse`: per line, scan the tokens, record the label
binding, construct and record the instruction, advance the output pointer
by the instruction's size.  (The Rust pointer is a `u16`; its overflow is
not modelled -- all uses here keep it far below 65536.) -/
def parseLines :
    List String → Nat → Nat → List (Nat × ParsedInstruction) → List (String × Nat) → ParseRes
  | [], _, _, instructions, labels => .ok { instructions := instructions, labels := labels }
  | line :: rest, pointer, line_number, instructions, labels =>
    match parseParts pointer line_number (tokenize line) none none (none, none, none) 0 with
    | .fail msg => .err msg
    | .panic => .panic
    | .done label con args =>
      let labels' := match label with
        | some label_name => (label_name, pointer) :: labels
        | none => labels
      match con with
      | none => parseLines rest pointer (line_number + 1) instructions labels'
      | some c =>
        match c args with
        | .error e => .err e
        | .ok instruction =>
          parseLines rest (pointer + get_size instruction) (line_number + 1)
            ((pointer, ⟨line_number, instruction⟩) :: instructions) labels'

/-- `parse`: over the lines of the source, starting at line number 1 and
output address 0. -/
def parse (lines : List String) : ParseRes :=
  parseLines lines 0 1 [] []

end AsmParse

namespace AsmEmit

open AsmParse in
/-- `src/compiler/compilation/compiler.rs`: label-or-literal resolution used
for jump/address operands (`labels.get(l).ok_or(...)?`). -/
def resolveTarget (target : Token) (labels : List (String × Nat)) : Except String Nat :=
  match target with
  | .Value t => .ok t
  | .Label l =>
    match labels.lookup l with
    | some t => .ok t
    | none => .error ("Undefined label \"" ++ l ++ "\"!")

open AsmParse in
/-- `compile_instruction` with the per-opcode emitters inlined: each
emitted `u16` is written as two little-endian bytes in the source and is
modelled as one word here. -/
def compile_instruction (instruction : Instruction) (labels : List (String × Nat)) :
    Except String (List Nat) :=
  match instruction with
  | .Halt => .ok [0]
  | .Set a1 a2 =>
    match a1 with
    | .Value r =>
      match a2 with
      | .Value v => .ok [1, r, v]
      | .Label _ => .error "The second argument of a set instruction must be a literal."
    | .Label _ => .error "The first argument of a set instruction must be a literal."
  | .Push a1 =>
    match a1 with
    | .Value v => .ok [2, v]
    | .Label _ => .error "The argument of a push instruction must be a literal."
  | .Pop a1 =>
    match a1 with
    | .Value r => .ok [3, r]
    | .Label _ => .error "The argument of a pop instruction must be a literal."
  | .Eq a1 a2 a3 =>
    match a1, a2, a3 with
    | .Value r, .Value a, .Value b => .ok [4, r, a, b]
    | .Value _, .Value _, .Label _ =>
      .error "The third argument of a eq instruction must be a literal."
    | .Value _, .Label _, _ => .error "The second argument of a eq instruction must be a literal."
    | .Label _, _, _ => .error "The first argument of a eq instruction must be a literal."
  | .Gt a1 a2 a3 =>
    match a1, a2, a3 with
    | .Value r, .Value a, .Value b => .ok [5, r, a, b]
    | .Value _, .Value _, .Label _ =>
      .error "The third argument of a gt instruction must be a literal."
    | .Value _, .Label _, _ => .error "The second argument of a gt instruction must be a literal."
    | .Label _, _, _ => .error "The first argument of a gt instruction must be a literal."
  | .Jmp a1 =>
    match resolveTarget a1 labels with
    | .error e => .error e
    | .ok t => .ok [6, t]
  | .Jt a1 a2 =>
    match a1 with
    | .Value v =>
      match resolveTarget a2 labels with
      | .error e => .error e
      | .ok t => .ok [7, v, t]
    | .Label _ => .error "The first argument of a jt instruction must be a literal."
  | .Jf a1 a2 =>
    match a1 with
    | .Value v =>
      match resolveTarget a2 labels with
      | .error e => .error e
      | .ok t => .ok [8, v, t]
    | .Label _ => .error "The first argument of a jf instruction must be a literal."
  | .Add a1 a2 a3 =>
    match a1, a2, a3 with
    | .Value r, .Value a, .Value b => .ok [9, r, a, b]
    | .Value _, .Value _, .Label _ =>
      .error "The third argument of a add instruction must be a literal."
    | .Value _, .Label _, _ => .error "The second argument of a add instruction must be a literal."
    | .Label _, _, _ => .error "The first argument of a add instruction must be a literal."
  | .Mul a1 a2 a3 =>
    match a1, a2, a3 with
    | .Value r, .Value a, .Value b => .ok [10, r, a, b]
    | .Value _, .Value _, .Label _ =>
      .error "The third argument of a mult instruction must be a literal."
    | .Value _, .Label _, _ =>
      .error "The second argument of a mult instruction must be a literal."
    | .Label _, _, _ => .error "The first argument of a mult instruction must be a literal."
  | .Mod a1 a2 a3 =>
    match a1, a2, a3 with
    | .Value r, .Value a, .Value b => .ok [11, r, a, b]
    | .Value _, .Value _, .Label _ =>
      .error "The third argument of a mod instruction must be a literal."
    | .Value _, .Label _, _ => .error "The second argument of a mod instruction must be a literal."
    | .Label _, _, _ => .error "The first argument of a mod instruction must be a literal."
  | .And a1 a2 a3 =>
    match a1, a2, a3 with
    | .Value r, .Value a, .Value b => .ok [12, r, a, b]
    | .Value _, .Value _, .Label _ =>
      .error "The third argument of a and instruction must be a literal."
    | .Value _, .Label _, _ => .error "The second argument of a and instruction must be a literal."
    | .Label _, _, _ => .error "The first argument of a and instruction must be a literal."
  | .Or a1 a2 a3 =>
    match a1, a2, a3 with
    | .Value r, .Value a, .Value b => .ok [13, r, a, b]
    | .Value _, .Value _, .Label _ =>
      .error "The third argument of a or instruction must be a literal."
    | .Value _, .Label _, _ => .error "The second argument of a or instruction must be a literal."
    | .Label _, _, _ => .error "The first argument of a or instruction must be a literal."
  | .Not a1 a2 =>
    match a1 with
    | .Value r =>
      match a2 with
      | .Value v => .ok [14, r, v]
      | .Label _ => .error "The second argument of a not instruction must be a literal."
    | .Label _ => .error "The first argument of a not instruction must be a literal."
  | .RMem a1 a2 =>
    match a1 with
    | .Value r =>
      match resolveTarget a2 labels with
      | .error e => .error e
      | .ok t => .ok [15, r, t]
    | .Label _ => .error "The first argument of a rmem instruction must be a literal."
  | .WMem a1 a2 =>
    match a2 with
    | .Value v =>
      match resolveTarget a1 labels with
      | .error e => .error e
      | .ok t => .ok [16, t, v]
    | .Label _ => .error "The second argument of a wmem instruction must be a literal."
  | .Call a1 =>
    match resolveTarget a1 labels with
    | .error e => .error e
    | .ok t => .ok [17, t]
  | .Ret => .ok [18]
  | .Out a1 =>
    match a1 with
    | .Value v => .ok [19, v]
    | .Label _ => .error "The argument of a out instruction must be a literal."
  | .In a1 =>
    match a1 with
    | .Value r => .ok [20, r]
    | .Label _ => .error "The argument of a in instruction must be a literal."
  | .Noop => .ok [21]
  | .Data a1 =>
    match a1 with
    | .Value t => .ok [t]
    | .Label _ => .error "Data must be a literal."

open AsmParse in
/-- The `while let Some(..) = instructions.get(&pointer)` loop of `compile`.
Each iteration strictly increases the pointer and consumes one of the
finitely many distinct keys, so `instructions.length + 1` fuel always
suffices; the out-of-fuel branch is unreachable. -/
def compileFrom (parsing : Parsing) : Nat → Nat → Except String (List Nat)
  | 0, _ => .error "compile loop out of fuel (unreachable)"
  | fuel + 1, pointer =>
    match parsing.instructions.lookup pointer with
    | none => .ok []
    | some pi =>
      match compile_instruction pi.instruction parsing.labels with
      | .error e =>
        .error ("Error when compiling line " ++ toString pi.line_number ++ ".\n\t" ++ e)
      | .ok words =>
        match compileFrom parsing fuel (pointer + get_size pi.instruction) with
        | .error e => .error e
        | .ok rest => .ok (words ++ rest)

open AsmParse in
/-- `compile`: emit from output address 0. -/
def compile (parsing : Parsing) : Except String (List Nat) :=
  compileFrom parsing (parsing.instructions.length + 1) 0

end AsmEmit

/-- Outcome of running the assembler on source lines. -/
inductive AsmRes where
  | ok (image : List Nat)
  | err (msg : String)
  | panic
deriving DecidableEq, Repr

/-- The assembler pipeline of `main.rs`'s `compile` subcommand: `parse`
then `compile`, producing the output image as words. -/
def assemble (lines : List String) : AsmRes :=
  match AsmParse.parse lines with
  | .err m => .err m
  | .panic => .panic
  | .ok parsing =>
    match AsmEmit.compile parsing with
    | .error m => .err m
    | .ok image => .ok image

/-- Disassemble an image and feed the resulting lines back through the
assembler (`none` when the disassembler itself panics). -/
def reassemble (image : List Nat) : Option AsmRes :=
  (Decomp.decompile image).map assemble

end Synacor

namespace Synacor

open Runtime

/-- C1 (counterexample): from the freshly loaded image
`[15, 32768, 3, 40000]` (whose word 40000 exceeds 32767), a single
successful `rmem` step reaches a state whose register 0 holds 40000, so it
is not the case that every register of every reachable state is in
`0..=32767`. -/
theorem rmem_stores_word_above_32767 :
    Reachable [15, 32768, 3, 40000]
      ⟨⟨[15, 32768, 3, 40000], [], [40000, 0, 0, 0, 0, 0, 0, 0], []⟩, 3⟩ ∧
    ¬ (∀ vm, Reachable [15, 32768, 3, 40000] vm → RegBound vm.data) := by
  have hstep : step (VM.new (Data.new [15, 32768, 3, 40000])) [] =
      .ok true ⟨⟨[15, 32768, 3, 40000], [], [40000, 0, 0, 0, 0, 0, 0, 0], []⟩, 3⟩ [] [] := by
    rfl
  have hr := Reachable.next Reachable.init hstep
  refine ⟨hr, fun hall => ?_⟩
  have h40000 := hall _ hr 40000 (by decide)
  omega

/-- C2: executing `mod` (opcode 11) with a resolved divisor of 0 does not
return an error result: the step panics (Rust's `%` on `u16` aborts on a
zero divisor), as evaluated on the image `[11, 32768, 5, 0]`. -/
theorem mod_by_zero_panics :
    step (VM.new (Data.new [11, 32768, 5, 0])) [] =
      .panic "attempt to calculate the remainder with a divisor of zero" := by
  rfl

/-- C3: for `[10, 0, 0, 0]` -- an image whose only opcode word, 10, is in
`0..=21` -- the disassembler prints the mnemonic `mul`, which the
assembler's mnemonic table does not accept (it only knows `mult`), so
assembling the disassembler's output fails instead of reproducing the
image: `assemble(disassemble(image)) == image` does not hold. -/
theorem decompile_mul_breaks_roundtrip :
    Decomp.decompile [10, 0, 0, 0] = some ["0:\tmul\t0\t0\t0"] ∧
    reassemble [10, 0, 0, 0] = some (.err "Unknown op \"mul\" at line 1.") ∧
    some (AsmRes.err "Unknown op \"mul\" at line 1.") ≠ some (AsmRes.ok [10, 0, 0, 0]) := by
  have h1 : Decomp.decompile [10, 0, 0, 0] = some ["0:\tmul\t0\t0\t0"] := by
    simp [Decomp.decompile, Decomp.decompileFrom]
    rfl
  refine ⟨h1, ?_, by decide⟩
  rw [reassemble, h1]
  rfl

/-- C4: the assembler does not accept the pseudo-op mnemonic `data`: its
mnemonic table has no entry for it, so the source line `data 42` fails to
parse with an unknown-op error; yet `compiler.rs`'s own emitter for the
`Data` instruction emits exactly one word (the literal's value). -/
theorem data_mnemonic_not_parsed :
    AsmParse.tokenize "data 42" = ["data", "42"] ∧
    AsmParse.get_constructor "data" = none ∧
    AsmParse.parse ["data 42"] = .err "Unknown op \"data\" at line 1." ∧
    AsmEmit.compile_instruction (.Data (.Value 42)) [] = .ok [42] := by
  exact ⟨rfl, rfl, rfl, rfl⟩

/-- C8 (counterexample): running the image `[9,32768,32769,4,19,32768,0]`
with register 1 initially 5 halts cleanly but emits the single codepoint 9
(`add` stores `reg1 + 4 = 9`, not `0 + 5 = 5`), i.e. the byte 0x09 -- not
the byte 0x05 the claim states. -/
theorem hello_digit_outputs_nine_not_five :
    run 10 ⟨⟨[9, 32768, 32769, 4, 19, 32768, 0], [], [0, 5, 0, 0, 0, 0, 0, 0], []⟩, 0⟩ [] [] =
      .done ⟨⟨[9, 32768, 32769, 4, 19, 32768, 0], [], [9, 5, 0, 0, 0, 0, 0, 0], []⟩, 6⟩ [] [9] ∧
    utf8Bytes 9 = [9] ∧
    ¬ ∃ vmE inE,
      run 10 ⟨⟨[9, 32768, 32769, 4, 19, 32768, 0], [], [0, 5, 0, 0, 0, 0, 0, 0], []⟩, 0⟩ [] [] =
        .done vmE inE [5] := by
  refine ⟨by rfl, by rfl, ?_⟩
  rintro ⟨vmE, inE, h⟩
  rw [show run 10 ⟨⟨[9, 32768, 32769, 4, 19, 32768, 0], [], [0, 5, 0, 0, 0, 0, 0, 0], []⟩, 0⟩ [] []
      = .done ⟨⟨[9, 32768, 32769, 4, 19, 32768, 0], [], [9, 5, 0, 0, 0, 0, 0, 0], []⟩, 6⟩ [] [9]
    from rfl] at h
  cases h

/-- Record updates that do not touch `memory` or `memory_changes` leave
`read_memory` unchanged. -/
theorem read_memory_stack_update (d : Data) (s : List Nat) (a : Nat) :
    Data.read_memory { d with stack := s } a = d.read_memory a := rfl

/-- `set_number` succeeds exactly as a register write when the destination
word is a register reference. -/
theorem set_number_eq_of_register {d : Data} {idx r : Nat} (value : Nat)
    (hread : d.read_memory (idx % 65536) = .ok r) (h1 : 32767 < r) (h2 : r < 32776) :
    d.set_number idx value = .ok { d with registers := d.registers.set (r - 32768) value } := by
  unfold Data.set_number
  split
  · rename_i e heq
    rw [hread] at heq
    exact Except.noConfusion heq
  · rename_i register heq
    rw [hread] at heq
    injection heq with heq1
    subst heq1
    rw [if_pos ⟨h1, h2⟩]

/-- `set_number` rejects a destination word that is a literal. -/
theorem set_number_eq_of_literal {d : Data} {idx w : Nat} (value : Nat)
    (hread : d.read_memory (idx % 65536) = .ok w) (hw : w ≤ 32767) :
    d.set_number idx value =
      .error ("Number at " ++ toString idx ++ " (" ++ toString w ++ ") is not a register!") := by
  unfold Data.set_number
  split
  · rename_i e heq
    rw [hread] at heq
    exact Except.noConfusion heq
  · rename_i register heq
    rw [hread] at heq
    injection heq with heq1
    subst heq1
    rw [if_neg (by omega)]

/-- Lifting a successful handler run through `step`: `Move` action. -/
theorem step_of_handler_move {vm : VM} {input : List Nat} {opcode : Nat} {m : Nat} {d' : Data}
    {input' o : List Nat}
    (hlen : vm.pointer < vm.data.length_memory)
    (hfetch : vm.data.get_number vm.pointer = .ok opcode)
    (hh : get_handler opcode vm.data vm.pointer input = .ok (.Move m) d' input' o) :
    step vm input = .ok true ⟨d', vm.pointer + m⟩ input' o := by
  unfold step
  rw [if_neg (by omega)]
  split
  · rename_i e heq
    rw [hfetch] at heq
    exact Except.noConfusion heq
  · rename_i opcode1 heq
    rw [hfetch] at heq
    injection heq with heq1
    subst heq1
    rw [hh]

/-- Lifting a successful handler run through `step`: `Jump` action. -/
theorem step_of_handler_jump {vm : VM} {input : List Nat} {opcode : Nat} {j : Nat} {d' : Data}
    {input' o : List Nat}
    (hlen : vm.pointer < vm.data.length_memory)
    (hfetch : vm.data.get_number vm.pointer = .ok opcode)
    (hh : get_handler opcode vm.data vm.pointer input = .ok (.Jump j) d' input' o) :
    step vm input = .ok true ⟨d', j⟩ input' o := by
  unfold step
  rw [if_neg (by omega)]
  split
  · rename_i e heq
    rw [hfetch] at heq
    exact Except.noConfusion heq
  · rename_i opcode1 heq
    rw [hfetch] at heq
    injection heq with heq1
    subst heq1
    rw [hh]

/-- Lifting a successful handler run through `step`: `Halt` action. -/
theorem step_of_handler_halt {vm : VM} {input : List Nat} {opcode : Nat} {d' : Data}
    {input' o : List Nat}
    (hlen : vm.pointer < vm.data.length_memory)
    (hfetch : vm.data.get_number vm.pointer = .ok opcode)
    (hh : get_handler opcode vm.data vm.pointer input = .ok .Halt d' input' o) :
    step vm input = .ok false ⟨d', vm.pointer⟩ input' o := by
  unfold step
  rw [if_neg (by omega)]
  split
  · rename_i e heq
    rw [hfetch] at heq
    exact Except.noConfusion heq
  · rename_i opcode1 heq
    rw [hfetch] at heq
    injection heq with heq1
    subst heq1
    rw [hh]

/-- Lifting a failing handler run through `step`. -/
theorem step_of_handler_err {vm : VM} {input : List Nat} {opcode : Nat} {e : String} {d' : Data}
    (hlen : vm.pointer < vm.data.length_memory)
    (hfetch : vm.data.get_number vm.pointer = .ok opcode)
    (hh : get_handler opcode vm.data vm.pointer input = .err e d') :
    step vm input =
      .err ("Error at " ++ toString vm.pointer ++ ":\n\t" ++ e) ⟨d', vm.pointer⟩ input := by
  unfold step
  rw [if_neg (by omega)]
  split
  · rename_i e1 heq
    rw [hfetch] at heq
    exact Except.noConfusion heq
  · rename_i opcode1 heq
    rw [hfetch] at heq
    injection heq with heq1
    subst heq1
    rw [hh]

/-- C5: with an empty stack, a `pop` (opcode 3) step fails with an error
result (the stack-underflow message), whereas a `ret` (opcode 18) step
reports a clean halt (`Ok(false)`) with the machine unchanged. -/
theorem pop_empty_errors_ret_empty_halts {vm : VM} {input : List Nat}
    (hlen : vm.pointer < vm.data.length_memory)
    (hstk : vm.data.stack = []) :
    (vm.data.get_number vm.pointer = .ok 3 →
      ∃ msg, step vm input = .err msg vm input) ∧
    (vm.data.get_number vm.pointer = .ok 18 →
      step vm input = .ok false vm input []) := by
  have hpop : vm.data.pop_stack = .error "Stack was empty when popping!" := by
    unfold Data.pop_stack
    rw [hstk]
  constructor
  · intro hfetch
    have hh : get_handler 3 vm.data vm.pointer input =
        .err "Stack was empty when popping!" vm.data := by
      show Runtime.pop vm.data vm.pointer input = _
      simp only [Runtime.pop, hpop]
    exact ⟨_, step_of_handler_err hlen hfetch hh⟩
  · intro hfetch
    have hh : get_handler 18 vm.data vm.pointer input = .ok .Halt vm.data input [] := by
      show Runtime.ret vm.data vm.pointer input = _
      simp only [Runtime.ret, hpop]
    exact step_of_handler_halt hlen hfetch hh

/-- C5 (witness): on the image `[3, 32768]` with an empty stack, `pop`
steps to an error; on the image `[18]`, `ret` steps to a clean halt. -/
theorem pop_empty_errors_ret_empty_halts_witness :
    (∃ msg, step (VM.new (Data.new [3, 32768])) [] = .err msg (VM.new (Data.new [3, 32768])) []) ∧
    step (VM.new (Data.new [18])) [] = .ok false (VM.new (Data.new [18])) [] [] :=
  ⟨(pop_empty_errors_ret_empty_halts (by decide) (by rfl)).1 (by rfl),
    (pop_empty_errors_ret_empty_halts (by decide) (by rfl)).2 (by rfl)⟩

/-- C6: a `mult` (opcode 10) step with resolved operands `av, bv` in
`0..=32767` and a register-reference destination word `r` stores
`(av * bv) % 32768` into that register and advances the pointer by 4: the
64-bit intermediate of the source (`% 2^64` in the embedded handler) loses
nothing, because the product is below 2^64. -/
theorem mult_stores_product_mod {vm : VM} {input : List Nat} {av bv r : Nat}
    (hlen : vm.pointer < vm.data.length_memory)
    (hfetch : vm.data.get_number vm.pointer = .ok 10)
    (ha : vm.data.get_number (vm.pointer + 2) = .ok av)
    (hb : vm.data.get_number (vm.pointer + 3) = .ok bv)
    (ha' : av ≤ 32767) (hb' : bv ≤ 32767)
    (hr : vm.data.read_memory ((vm.pointer + 1) % 65536) = .ok r)
    (hr1 : 32767 < r) (hr2 : r < 32776) :
    step vm input =
      .ok true
        ⟨{ vm.data with registers := vm.data.registers.set (r - 32768) ((av * bv) % 32768) },
          vm.pointer + 4⟩ input [] := by
  have hval : av * bv % 18446744073709551616 % 32768 = av * bv % 32768 := by
    have hprod : av * bv < 18446744073709551616 := by
      calc av * bv ≤ 32767 * 32767 := Nat.mul_le_mul ha' hb'
      _ < 18446744073709551616 := by norm_num
    rw [Nat.mod_eq_of_lt hprod]
  have hset : vm.data.set_number (vm.pointer + 1) (av * bv % 18446744073709551616 % 32768) =
      .ok { vm.data with registers := vm.data.registers.set (r - 32768) ((av * bv) % 32768) } := by
    rw [set_number_eq_of_register _ hr hr1 hr2, hval]
  have hh : get_handler 10 vm.data vm.pointer input =
      .ok (.Move 4)
        { vm.data with registers := vm.data.registers.set (r - 32768) ((av * bv) % 32768) }
        input [] := by
    show Runtime.mul vm.data vm.pointer input = _
    simp only [Runtime.mul, ha, hb, hset]
  exact step_of_handler_move hlen hfetch hh

/-- C6 (witness): on the image `[10, 32768, 7, 5]` the `mult` step stores
`7 * 5 = 35` in register 0 and moves the pointer to 4. -/
theorem mult_stores_product_mod_witness :
    step (VM.new (Data.new [10, 32768, 7, 5])) [] =
      .ok true ⟨⟨[10, 32768, 7, 5], [], [35, 0, 0, 0, 0, 0, 0, 0], []⟩, 4⟩ [] [] :=
  @mult_stores_product_mod (VM.new (Data.new [10, 32768, 7, 5])) [] 7 5 32768
    (by decide) (by rfl) (by rfl) (by rfl) (by decide)
    (by decide) (by rfl) (by decide) (by decide)

/-- C7: an `in` (opcode 20) step with a register-reference destination word
`r`: on empty input it halts cleanly; the `in` handler on a leading CR byte
(13) discards it and reads again, behaving exactly as on the remaining
input (so input 13 then 10 stores 10); any other leading byte is stored in
the destination register and the pointer advances by 2 with that byte
consumed. -/
theorem in_reads_byte_skips_cr_eof_halts {vm : VM} {r : Nat}
    (hlen : vm.pointer < vm.data.length_memory)
    (hfetch : vm.data.get_number vm.pointer = .ok 20)
    (hr : vm.data.read_memory ((vm.pointer + 1) % 65536) = .ok r)
    (hr1 : 32767 < r) (hr2 : r < 32776) :
    (step vm [] = .ok false vm [] []) ∧
    (∀ rest, in_op vm.data vm.pointer (13 :: rest) = in_op vm.data vm.pointer rest) ∧
    (∀ b rest, b ≠ 13 →
      step vm (b :: rest) =
        .ok true ⟨{ vm.data with registers := vm.data.registers.set (r - 32768) b },
          vm.pointer + 2⟩ rest []) := by
  refine ⟨?_, ?_, ?_⟩
  · have hh : get_handler 20 vm.data vm.pointer [] = .ok .Halt vm.data [] [] := by
      show in_op vm.data vm.pointer [] = _
      rfl
    exact step_of_handler_halt hlen hfetch hh
  · intro rest
    simp [in_op]
  · intro b rest hb
    have hset : vm.data.set_number (vm.pointer + 1) b =
        .ok { vm.data with registers := vm.data.registers.set (r - 32768) b } := by
      exact set_number_eq_of_register _ hr hr1 hr2
    have hh : get_handler 20 vm.data vm.pointer (b :: rest) =
        .ok (.Move 2) { vm.data with registers := vm.data.registers.set (r - 32768) b }
          rest [] := by
      show in_op vm.data vm.pointer (b :: rest) = _
      simp only [in_op, if_neg hb, hset]
    exact step_of_handler_move hlen hfetch hh

/-- C7 (witness): on the image `[20, 32768]`, empty input halts cleanly,
the handler on input bytes 13 then 10 behaves as on input 10 alone, and the
byte 10 ends up in register 0 with the input consumed. -/
theorem in_reads_byte_skips_cr_eof_halts_witness :
    (step (VM.new (Data.new [20, 32768])) [] = .ok false (VM.new (Data.new [20, 32768])) [] []) ∧
    (in_op (Data.new [20, 32768]) 0 [13, 10] = in_op (Data.new [20, 32768]) 0 [10]) ∧
    step (VM.new (Data.new [20, 32768])) [10] =
      .ok true ⟨⟨[20, 32768], [], [10, 0, 0, 0, 0, 0, 0, 0], []⟩, 2⟩ [] [] := by
  have h := @in_reads_byte_skips_cr_eof_halts (VM.new (Data.new [20, 32768])) 32768
    (by decide) (by rfl) (by rfl) (by decide) (by decide)
  exact ⟨h.1, h.2.1 [10], h.2.2 10 [] (by decide)⟩

/-- C10: a `pop` (opcode 3) step whose destination word `w` is a literal
(`w <= 32767`) on a non-empty stack returns an error result, but the
resulting machine has already lost the top stack element: the stack was
popped before `set_number` rejected the destination. -/
theorem pop_literal_dest_pops_then_errors {vm : VM} {input : List Nat} {v w : Nat}
    {rest : List Nat}
    (hlen : vm.pointer < vm.data.length_memory)
    (hfetch : vm.data.get_number vm.pointer = .ok 3)
    (hstk : vm.data.stack = v :: rest)
    (hw : vm.data.read_memory ((vm.pointer + 1) % 65536) = .ok w)
    (hw' : w ≤ 32767) :
    ∃ msg, step vm input = .err msg ⟨{ vm.data with stack := rest }, vm.pointer⟩ input := by
  have hpop : vm.data.pop_stack = .ok (v, { vm.data with stack := rest }) := by
    unfold Data.pop_stack
    rw [hstk]
  have hset : Data.set_number { vm.data with stack := rest } (vm.pointer + 1) v =
      .error ("Number at " ++ toString (vm.pointer + 1) ++ " (" ++ toString w ++
        ") is not a register!") := by
    refine set_number_eq_of_literal _ ?_ hw'
    rw [read_memory_stack_update]
    exact hw
  have hh : get_handler 3 vm.data vm.pointer input =
      .err ("Number at " ++ toString (vm.pointer + 1) ++ " (" ++ toString w ++
        ") is not a register!") { vm.data with stack := rest } := by
    show Runtime.pop vm.data vm.pointer input = _
    simp only [Runtime.pop, hpop, hset]
  exact ⟨_, step_of_handler_err hlen hfetch hh⟩

/-- C10 (witness): on the image `[3, 5]` with stack `[7]`, the `pop` step
errors while the resulting stack is already empty. -/
theorem pop_literal_dest_pops_then_errors_witness :
    ∃ msg, step ⟨⟨[3, 5], [], [0, 0, 0, 0, 0, 0, 0, 0], [7]⟩, 0⟩ [] =
      .err msg ⟨⟨[3, 5], [], [0, 0, 0, 0, 0, 0, 0, 0], []⟩, 0⟩ [] :=
  @pop_literal_dest_pops_then_errors ⟨⟨[3, 5], [], [0, 0, 0, 0, 0, 0, 0, 0], [7]⟩, 0⟩ [] 7 5 []
    (by decide) (by rfl) (by rfl) (by rfl) (by decide)

/-- `List.getD` stays within a bound satisfied by all elements and the
default. -/
theorem getD_le_of_all {l : List Nat} (i : Nat) {d : Nat} (h : ∀ x ∈ l, x ≤ 32767)
    (hd : d ≤ 32767) : l.getD i d ≤ 32767 := by
  induction l generalizing i with
  | nil => simpa [List.getD] using hd
  | cons a t ih =>
    cases i with
    | zero => exact h a (by simp)
    | succ n =>
      simp only [List.getD_cons_succ]
      exact ih n (fun x hx => h x (by simp [hx]))

/-- A successfully resolved operand is at most 32767 when the registers
are bounded (a literal is at most 32767 by the operand check; a register
reference returns a bounded register). -/
theorem get_number_le {d : Data} {i v : Nat} (hreg : RegBound d)
    (h : d.get_number i = .ok v) : v ≤ 32767 := by
  unfold Data.get_number at h
  split at h
  · exact Except.noConfusion h
  · split at h
    · exact Except.noConfusion h
    · split at h
      · injection h with h1
        subst h1
        exact getD_le_of_all _ hreg (by omega)
      · injection h with h1
        omega

/-- A successful `set_number` with a bounded value keeps all registers
bounded. -/
theorem set_number_regs {d d' : Data} {r value : Nat} (h : d.set_number r value = .ok d')
    (hv : value ≤ 32767) (hreg : RegBound d) : RegBound d' := by
  unfold Data.set_number at h
  split at h
  · exact Except.noConfusion h
  · split at h
    · injection h with h1
      subst h1
      intro x hx
      rcases List.mem_or_eq_of_mem_set hx with hx' | rfl
      · exact hreg x hx'
      · exact hv
    · exact Except.noConfusion h

/-- A successful `pop_stack` pops a stack element and leaves the
registers (and everything but the stack) unchanged. -/
theorem pop_stack_parts {d d1 : Data} {v : Nat} (h : d.pop_stack = .ok (v, d1)) :
    d1.registers = d.registers ∧ v ∈ d.stack := by
  unfold Data.pop_stack at h
  split at h
  · exact Except.noConfusion h
  · rename_i w rest heq
    injection h with h1
    injection h1 with h2 h3
    subst h2
    rw [← h3]
    exact ⟨rfl, by rw [heq]; simp⟩

/-- A successful `write_memory` leaves the registers unchanged. -/
theorem write_memory_regs {d d1 : Data} {a v : Nat} (h : d.write_memory a v = .ok d1) :
    d1.registers = d.registers := by
  unfold Data.write_memory at h
  split at h
  · injection h with h1
    rw [← h1]
  · exact Except.noConfusion h

theorem halt_keeps : HandlerKeepsRegs halt := by
  intro d i input a d' input' o hreg hstk hin h
  simp only [Runtime.halt] at h
  injection h with h1 h2 h3 h4
  subst h2
  exact hreg

theorem set_keeps : HandlerKeepsRegs Runtime.set := by
  intro d i input a d' input' o hreg hstk hin h
  simp only [Runtime.set] at h
  split at h
  · exact HRes.noConfusion h
  · rename_i v hg
    split at h
    · exact HRes.noConfusion h
    · rename_i d2 hs
      injection h with h1 h2 h3 h4
      subst h2
      exact set_number_regs hs (get_number_le hreg hg) hreg

theorem push_keeps : HandlerKeepsRegs Runtime.push := by
  intro d i input a d' input' o hreg hstk hin h
  simp only [Runtime.push] at h
  split at h
  · exact HRes.noConfusion h
  · injection h with h1 h2 h3 h4
    subst h2
    exact hreg

theorem pop_keeps : HandlerKeepsRegs Runtime.pop := by
  intro d i input a d' input' o hreg hstk hin h
  simp only [Runtime.pop] at h
  split at h
  · exact HRes.noConfusion h
  · rename_i v d1 hpop
    obtain ⟨hregs1, hmem⟩ := pop_stack_parts hpop
    split at h
    · exact HRes.noConfusion h
    · rename_i d2 hs
      injection h with h1 h2 h3 h4
      subst h2
      refine set_number_regs hs (hstk v hmem) ?_
      intro x hx
      rw [hregs1] at hx
      exact hreg x hx

theorem eq_keeps : HandlerKeepsRegs Runtime.eq := by
  intro d i input a d' input' o hreg hstk hin h
  simp only [Runtime.eq] at h
  split at h
  · exact HRes.noConfusion h
  · split at h
    · exact HRes.noConfusion h
    · split at h
      · exact HRes.noConfusion h
      · rename_i d2 hs
        injection h with h1 h2 h3 h4
        subst h2
        exact set_number_regs hs (by split <;> omega) hreg

theorem gt_keeps : HandlerKeepsRegs Runtime.gt := by
  intro d i input a d' input' o hreg hstk hin h
  simp only [Runtime.gt] at h
  split at h
  · exact HRes.noConfusion h
  · split at h
    · exact HRes.noConfusion h
    · split at h
      · exact HRes.noConfusion h
      · rename_i d2 hs
        injection h with h1 h2 h3 h4
        subst h2
        exact set_number_regs hs (by split <;> omega) hreg

theorem jmp_keeps : HandlerKeepsRegs Runtime.jmp := by
  intro d i input a d' input' o hreg hstk hin h
  simp only [Runtime.jmp] at h
  split at h
  · exact HRes.noConfusion h
  · injection h with h1 h2 h3 h4
    subst h2
    exact hreg

theorem jt_keeps : HandlerKeepsRegs Runtime.jt := by
  intro d i input a d' input' o hreg hstk hin h
  simp only [Runtime.jt] at h
  split at h
  · exact HRes.noConfusion h
  · split at h
    · split at h
      · exact HRes.noConfusion h
      · injection h with h1 h2 h3 h4
        subst h2
        exact hreg
    · injection h with h1 h2 h3 h4
      subst h2
      exact hreg

theorem jf_keeps : HandlerKeepsRegs Runtime.jf := by
  intro d i input a d' input' o hreg hstk hin h
  simp only [Runtime.jf] at h
  split at h
  · exact HRes.noConfusion h
  · split at h
    · split at h
      · exact HRes.noConfusion h
      · injection h with h1 h2 h3 h4
        subst h2
        exact hreg
    · injection h with h1 h2 h3 h4
      subst h2
      exact hreg

theorem add_keeps : HandlerKeepsRegs Runtime.add := by
  intro d i input a d' input' o hreg hstk hin h
  simp only [Runtime.add] at h
  split at h
  · exact HRes.noConfusion h
  · rename_i b hg2
    split at h
    · exact HRes.noConfusion h
    · rename_i c hg3
      split at h
      · exact HRes.noConfusion h
      · rename_i d2 hs
        injection h with h1 h2 h3 h4
        subst h2
        refine set_number_regs hs ?_ hreg
        have : (b + c) % 32768 < 32768 := Nat.mod_lt _ (by norm_num)
        omega

theorem mul_keeps : HandlerKeepsRegs Runtime.mul := by
  intro d i input a d' input' o hreg hstk hin h
  simp only [Runtime.mul] at h
  split at h
  · exact HRes.noConfusion h
  · rename_i b hg2
    split at h
    · exact HRes.noConfusion h
    · rename_i c hg3
      split at h
      · exact HRes.noConfusion h
      · rename_i d2 hs
        injection h with h1 h2 h3 h4
        subst h2
        refine set_number_regs hs ?_ hreg
        have : b * c % 18446744073709551616 % 32768 < 32768 := Nat.mod_lt _ (by norm_num)
        omega

theorem mod_keeps : HandlerKeepsRegs Runtime.mod_op := by
  intro d i input a d' input' o hreg hstk hin h
  simp only [Runtime.mod_op] at h
  split at h
  · exact HRes.noConfusion h
  · rename_i b hg2
    split at h
    · exact HRes.noConfusion h
    · rename_i c hg3
      split at h
      · exact HRes.noConfusion h
      · split at h
        · exact HRes.noConfusion h
        · rename_i d2 hs
          injection h with h1 h2 h3 h4
          subst h2
          refine set_number_regs hs ?_ hreg
          exact le_trans (Nat.mod_le b c) (get_number_le hreg hg2)

theorem and_keeps : HandlerKeepsRegs Runtime.and := by
  intro d i input a d' input' o hreg hstk hin h
  simp only [Runtime.and] at h
  split at h
  · exact HRes.noConfusion h
  · rename_i b hg2
    split at h
    · exact HRes.noConfusion h
    · split at h
      · exact HRes.noConfusion h
      · rename_i d2 hs
        injection h with h1 h2 h3 h4
        subst h2
        refine set_number_regs hs ?_ hreg
        exact le_trans Nat.and_le_left (get_number_le hreg hg2)

theorem or_keeps : HandlerKeepsRegs Runtime.or := by
  intro d i input a d' input' o hreg hstk hin h
  simp only [Runtime.or] at h
  split at h
  · exact HRes.noConfusion h
  · rename_i b hg2
    split at h
    · exact HRes.noConfusion h
    · rename_i c hg3
      split at h
      · exact HRes.noConfusion h
      · rename_i d2 hs
        injection h with h1 h2 h3 h4
        subst h2
        refine set_number_regs hs ?_ hreg
        have hb : b < 2 ^ 15 := by have := get_number_le hreg hg2; omega
        have hc : c < 2 ^ 15 := by have := get_number_le hreg hg3; omega
        have := Nat.or_lt_two_pow hb hc
        omega

theorem not_keeps : HandlerKeepsRegs Runtime.not := by
  intro d i input a d' input' o hreg hstk hin h
  simp only [Runtime.not] at h
  split at h
  · exact HRes.noConfusion h
  · rename_i v hg2
    split at h
    · exact HRes.noConfusion h
    · rename_i d2 hs
      injection h with h1 h2 h3 h4
      subst h2
      refine set_number_regs hs ?_ hreg
      have hv : v < 2 ^ 15 := by have := get_number_le hreg hg2; omega
      have h7 : (0x7FFF : Nat) < 2 ^ 15 := by norm_num
      have := Nat.xor_lt_two_pow h7 hv
      omega

theorem wmem_keeps : HandlerKeepsRegs Runtime.wmem := by
  intro d i input a d' input' o hreg hstk hin h
  simp only [Runtime.wmem] at h
  split at h
  · exact HRes.noConfusion h
  · split at h
    · exact HRes.noConfusion h
    · split at h
      · exact HRes.noConfusion h
      · rename_i d2 hw
        injection h with h1 h2 h3 h4
        subst h2
        intro x hx
        rw [write_memory_regs hw] at hx
        exact hreg x hx

theorem call_keeps : HandlerKeepsRegs Runtime.call := by
  intro d i input a d' input' o hreg hstk hin h
  simp only [Runtime.call] at h
  split at h
  · exact HRes.noConfusion h
  · injection h with h1 h2 h3 h4
    subst h2
    exact hreg

theorem ret_keeps : HandlerKeepsRegs Runtime.ret := by
  intro d i input a d' input' o hreg hstk hin h
  simp only [Runtime.ret] at h
  split at h
  · rename_i v d1 hpop
    injection h with h1 h2 h3 h4
    subst h2
    intro x hx
    rw [(pop_stack_parts hpop).1] at hx
    exact hreg x hx
  · injection h with h1 h2 h3 h4
    subst h2
    exact hreg

theorem out_keeps : HandlerKeepsRegs Runtime.out := by
  intro d i input a d' input' o hreg hstk hin h
  simp only [Runtime.out] at h
  split at h
  · exact HRes.noConfusion h
  · split at h
    · exact HRes.noConfusion h
    · injection h with h1 h2 h3 h4
      subst h2
      exact hreg

theorem in_op_keeps : HandlerKeepsRegs in_op := by
  intro d i input
  induction input with
  | nil =>
    intro a d' input' o hreg hstk hin h
    simp only [in_op] at h
    injection h with h1 h2 h3 h4
    subst h2
    exact hreg
  | cons b rest ih =>
    intro a d' input' o hreg hstk hin h
    simp only [in_op] at h
    split at h
    · exact ih a d' input' o hreg hstk (fun x hx => hin x (by simp [hx])) h
    · split at h
      · exact HRes.noConfusion h
      · rename_i d2 hs
        injection h with h1 h2 h3 h4
        subst h2
        refine set_number_regs hs ?_ hreg
        have := hin b (by simp)
        omega

theorem noop_keeps : HandlerKeepsRegs noop := by
  intro d i input a d' input' o hreg hstk hin h
  simp only [Runtime.noop] at h
  injection h with h1 h2 h3 h4
  subst h2
  exact hreg

theorem unknown_keeps : HandlerKeepsRegs unknown := by
  intro d i input a d' input' o hreg hstk hin h
  simp only [Runtime.unknown] at h
  split at h
  · exact HRes.noConfusion h
  · exact HRes.noConfusion h

/-- Every handler except `rmem` preserves the register bound. -/
theorem get_handler_keeps {opcode : Nat} (hop : opcode ≠ 15) :
    HandlerKeepsRegs (get_handler opcode) := by
  unfold get_handler
  split
  · exact halt_keeps
  · exact set_keeps
  · exact push_keeps
  · exact pop_keeps
  · exact eq_keeps
  · exact gt_keeps
  · exact jmp_keeps
  · exact jt_keeps
  · exact jf_keeps
  · exact add_keeps
  · exact mul_keeps
  · exact mod_keeps
  · exact and_keeps
  · exact or_keeps
  · exact not_keeps
  · exact absurd rfl hop
  · exact wmem_keeps
  · exact call_keeps
  · exact ret_keeps
  · exact out_keeps
  · exact in_op_keeps
  · exact noop_keeps
  · exact unknown_keeps

/-- C1 (amended): every instruction other than `rmem` (opcode 15) keeps
all registers in `0..=32767`: from a state whose registers and stack
entries are bounded by 32767 and whose input is a byte stream, any
successful step whose fetched opcode is not 15 leaves every register at
most 32767.  (`rmem` itself violates the claim, see the counterexample:
it stores the raw memory word unchecked.) -/
theorem step_preserves_register_bound_except_rmem {vm : VM} {input : List Nat} {c : Bool}
    {vm' : VM} {input' out : List Nat}
    (hreg : RegBound vm.data) (hstk : StackBound vm.data) (hin : ByteInput input)
    (hnr : vm.data.get_number vm.pointer ≠ Except.ok 15)
    (h : step vm input = .ok c vm' input' out) :
    RegBound vm'.data := by
  unfold step at h
  split at h
  · exact StepRes.noConfusion h
  · split at h
    · exact StepRes.noConfusion h
    · rename_i opcode heq
      have hkeep : HandlerKeepsRegs (get_handler opcode) :=
        get_handler_keeps (by rintro rfl; exact hnr heq)
      split at h
      · rename_i m d2 input2 o2 hh
        injection h with h1 h2 h3 h4
        subst h2
        exact hkeep _ _ _ _ _ _ _ hreg hstk hin hh
      · rename_i j d2 input2 o2 hh
        injection h with h1 h2 h3 h4
        subst h2
        exact hkeep _ _ _ _ _ _ _ hreg hstk hin hh
      · rename_i d2 input2 o2 hh
        injection h with h1 h2 h3 h4
        subst h2
        exact hkeep _ _ _ _ _ _ _ hreg hstk hin hh
      · exact StepRes.noConfusion h
      · exact StepRes.noConfusion h

/-- C1 (amended, witness): a concrete non-`rmem` step (a `set` storing 5 in
register 0 on the image `[1, 32768, 5]`) keeps every register at most
32767. -/
theorem step_preserves_register_bound_except_rmem_witness :
    RegBound (⟨⟨[1, 32768, 5], [], [5, 0, 0, 0, 0, 0, 0, 0], []⟩, 3⟩ : VM).data :=
  @step_preserves_register_bound_except_rmem (VM.new (Data.new [1, 32768, 5])) [] true
    ⟨⟨[1, 32768, 5], [], [5, 0, 0, 0, 0, 0, 0, 0], []⟩, 3⟩ [] []
    (by decide) (by decide) (by decide) (by decide) (by rfl)

/-- C8 (amended): the run halts cleanly after three steps and writes
exactly one byte, 0x09 (codepoint 9, whose UTF-8 encoding is the single
byte 9). -/
theorem hello_digit_outputs_nine :
    run 10 ⟨⟨[9, 32768, 32769, 4, 19, 32768, 0], [], [0, 5, 0, 0, 0, 0, 0, 0], []⟩, 0⟩ [] [] =
      .done ⟨⟨[9, 32768, 32769, 4, 19, 32768, 0], [], [9, 5, 0, 0, 0, 0, 0, 0], []⟩, 6⟩ [] [9] ∧
    utf8Bytes 9 = [9] := by
  exact ⟨rfl, rfl⟩

/-- C9 (counterexample): disassembling the image `[0]` produces the line
`0:\thalt`, which does not begin with the decimal address directly
followed by a tab: the character after the address is `:`. -/
theorem decompile_emits_colon_after_address :
    Decomp.decompile [0] = some ["0:\thalt"] ∧
    ¬ ∃ rest, "0:\thalt" = "0" ++ "\t" ++ rest := by
  constructor
  · simp [Decomp.decompile, Decomp.decompileFrom]
    rfl
  · rintro ⟨rest, h⟩
    have hd := congrArg String.data h
    rw [String.data_append, String.data_append] at hd
    rw [show ("0:\thalt" : String).data = ['0', ':', '\t', 'h', 'a', 'l', 't'] from rfl,
      show ("0" : String).data = ['0'] from rfl,
      show ("\t" : String).data = ['\t'] from rfl] at hd
    injection hd with h1 h2
    injection h2 with h3 h4
    exact absurd h3 (by decide)

set_option maxHeartbeats 1600000 in
/-- Every line produced by the disassembler walk starting anywhere is the
decimal address, then `:`, then a tab, then the rest of the line (fuel-
indexed induction). -/
theorem decompileFrom_shape_aux (memory : List Nat) :
    ∀ n p lines, memory.length - p ≤ n →
      Decomp.decompileFrom memory p = some lines →
      ∀ l ∈ lines, ∃ (a : Nat) (rest : String), l = toString a ++ ":\t" ++ rest := by
  intro n
  induction n with
  | zero =>
    intro p lines hle h
    unfold Decomp.decompileFrom at h
    rw [dif_neg (by omega)] at h
    injection h with h1
    subst h1
    intro l hl
    exact absurd hl (List.not_mem_nil l)
  | succ n ih =>
    intro p lines hle h
    unfold Decomp.decompileFrom at h
    by_cases hp : p < memory.length
    case neg =>
      rw [dif_neg hp] at h
      injection h with h1
      subst h1
      intro l hl
      exact absurd hl (List.not_mem_nil l)
    case pos =>
      rw [dif_pos hp] at h
      split at h
      · -- opcode 0: halt
        cases hrec : Decomp.decompileFrom memory (p + 1) with
        | none =>
          rw [hrec] at h
          simp at h
        | some rest1 =>
          rw [hrec] at h
          simp only [Option.some.injEq] at h
          subst h
          intro l hl
          rcases List.mem_cons.mp hl with rfl | hl'
          · refine ⟨p, "halt", ?_⟩
            rw [show (":\thalt" : String) = ":\t" ++ "halt" from rfl]
            simp only [String.append_assoc]
          · exact ih (p + 1) rest1 (by omega) hrec l hl'
      · -- opcode 1: set
        cases ha1 : memory.get? (p + 1) with
        | none =>
          rw [ha1] at h
          simp at h
        | some a1 =>
          cases ha2 : memory.get? (p + 2) with
          | none =>
            rw [ha1, ha2] at h
            simp at h
          | some a2 =>
            cases hrec : Decomp.decompileFrom memory (p + 3) with
            | none =>
              rw [ha1, ha2, hrec] at h
              simp at h
            | some rest1 =>
              rw [ha1, ha2, hrec] at h
              simp only [Option.some.injEq] at h
              subst h
              intro l hl
              rcases List.mem_cons.mp hl with rfl | hl'
              · refine ⟨p, "set\t" ++ toString a1 ++ "\t" ++ toString a2, ?_⟩
                rw [show (":\tset\t" : String) = ":\t" ++ "set\t" from rfl]
                simp only [String.append_assoc]
              · exact ih (p + 3) rest1 (by omega) hrec l hl'
      · -- opcode 2: push
        cases ha1 : memory.get? (p + 1) with
        | none =>
          rw [ha1] at h
          simp at h
        | some a1 =>
          cases hrec : Decomp.decompileFrom memory (p + 2) with
          | none =>
            rw [ha1, hrec] at h
            simp at h
          | some rest1 =>
            rw [ha1, hrec] at h
            simp only [Option.some.injEq] at h
            subst h
            intro l hl
            rcases List.mem_cons.mp hl with rfl | hl'
            · refine ⟨p, "push\t" ++ toString a1, ?_⟩
              rw [show (":\tpush\t" : String) = ":\t" ++ "push\t" from rfl]
              simp only [String.append_assoc]
            · exact ih (p + 2) rest1 (by omega) hrec l hl'
      · -- opcode 3: pop
        cases ha1 : memory.get? (p + 1) with
        | none =>
          rw [ha1] at h
          simp at h
        | some a1 =>
          cases hrec : Decomp.decompileFrom memory (p + 2) with
          | none =>
            rw [ha1, hrec] at h
            simp at h
          | some rest1 =>
            rw [ha1, hrec] at h
            simp only [Option.some.injEq] at h
            subst h
            intro l hl
            rcases List.mem_cons.mp hl with rfl | hl'
            · refine ⟨p, "pop\t" ++ toString a1, ?_⟩
              rw [show (":\tpop\t" : String) = ":\t" ++ "pop\t" from rfl]
              simp only [String.append_assoc]
            · exact ih (p + 2) rest1 (by omega) hrec l hl'
      · -- opcode 4: eq
        cases ha1 : memory.get? (p + 1) with
        | none =>
          rw [ha1] at h
          simp at h
        | some a1 =>
          cases ha2 : memory.get? (p + 2) with
          | none =>
            rw [ha1, ha2] at h
            simp at h
          | some a2 =>
            cases ha3 : memory.get? (p + 3) with
            | none =>
              rw [ha1, ha2, ha3] at h
              simp at h
            | some a3 =>
              cases hrec : Decomp.decompileFrom memory (p + 4) with
              | none =>
                rw [ha1, ha2, ha3, hrec] at h
                simp at h
              | some rest1 =>
                rw [ha1, ha2, ha3, hrec] at h
                simp only [Option.some.injEq] at h
                subst h
                intro l hl
                rcases List.mem_cons.mp hl with rfl | hl'
                · refine ⟨p, "eq\t" ++ toString a1 ++ "\t" ++ toString a2 ++ "\t" ++ toString a3, ?_⟩
                  rw [show (":\teq\t" : String) = ":\t" ++ "eq\t" from rfl]
                  simp only [String.append_assoc]
                · exact ih (p + 4) rest1 (by omega) hrec l hl'
      · -- opcode 5: gt
        cases ha1 : memory.get? (p + 1) with
        | none =>
          rw [ha1] at h
          simp at h
        | some a1 =>
          cases ha2 : memory.get? (p + 2) with
          | none =>
            rw [ha1, ha2] at h
            simp at h
          | some a2 =>
            cases ha3 : memory.get? (p + 3) with
            | none =>
              rw [ha1, ha2, ha3] at h
              simp at h
            | some a3 =>
              cases hrec : Decomp.decompileFrom memory (p + 4) with
              | none =>
                rw [ha1, ha2, ha3, hrec] at h
                simp at h
              | some rest1 =>
                rw [ha1, ha2, ha3, hrec] at h
                simp only [Option.some.injEq] at h
                subst h
                intro l hl
                rcases List.mem_cons.mp hl with rfl | hl'
                · refine ⟨p, "gt\t" ++ toString a1 ++ "\t" ++ toString a2 ++ "\t" ++ toString a3, ?_⟩
                  rw [show (":\tgt\t" : String) = ":\t" ++ "gt\t" from rfl]
                  simp only [String.append_assoc]
                · exact ih (p + 4) rest1 (by omega) hrec l hl'
      · -- opcode 6: jmp
        cases ha1 : memory.get? (p + 1) with
        | none =>
          rw [ha1] at h
          simp at h
        | some a1 =>
          cases hrec : Decomp.decompileFrom memory (p + 2) with
          | none =>
            rw [ha1, hrec] at h
            simp at h
          | some rest1 =>
            rw [ha1, hrec] at h
            simp only [Option.some.injEq] at h
            subst h
            intro l hl
            rcases List.mem_cons.mp hl with rfl | hl'
            · refine ⟨p, "jmp\t" ++ toString a1, ?_⟩
              rw [show (":\tjmp\t" : String) = ":\t" ++ "jmp\t" from rfl]
              simp only [String.append_assoc]
            · exact ih (p + 2) rest1 (by omega) hrec l hl'
      · -- opcode 7: jt
        cases ha1 : memory.get? (p + 1) with
        | none =>
          rw [ha1] at h
          simp at h
        | some a1 =>
          cases ha2 : memory.get? (p + 2) with
          | none =>
            rw [ha1, ha2] at h
            simp at h
          | some a2 =>
            cases hrec : Decomp.decompileFrom memory (p + 3) with
            | none =>
              rw [ha1, ha2, hrec] at h
              simp at h
            | some rest1 =>
              rw [ha1, ha2, hrec] at h
              simp only [Option.some.injEq] at h
              subst h
              intro l hl
              rcases List.mem_cons.mp hl with rfl | hl'
              · refine ⟨p, "jt\t" ++ toString a1 ++ "\t" ++ toString a2, ?_⟩
                rw [show (":\tjt\t" : String) = ":\t" ++ "jt\t" from rfl]
                simp only [String.append_assoc]
              · exact ih (p + 3) rest1 (by omega) hrec l hl'
      · -- opcode 8: jf
        cases ha1 : memory.get? (p + 1) with
        | none =>
          rw [ha1] at h
          simp at h
        | some a1 =>
          cases ha2 : memory.get? (p + 2) with
          | none =>
            rw [ha1, ha2] at h
            simp at h
          | some a2 =>
            cases hrec : Decomp.decompileFrom memory (p + 3) with
            | none =>
              rw [ha1, ha2, hrec] at h
              simp at h
            | some rest1 =>
              rw [ha1, ha2, hrec] at h
              simp only [Option.some.injEq] at h
              subst h
              intro l hl
              rcases List.mem_cons.mp hl with rfl | hl'
              · refine ⟨p, "jf\t" ++ toString a1 ++ "\t" ++ toString a2, ?_⟩
                rw [show (":\tjf\t" : String) = ":\t" ++ "jf\t" from rfl]
                simp only [String.append_assoc]
              · exact ih (p + 3) rest1 (by omega) hrec l hl'
      · -- opcode 9: add
        cases ha1 : memory.get? (p + 1) with
        | none =>
          rw [ha1] at h
          simp at h
        | some a1 =>
          cases ha2 : memory.get? (p + 2) with
          | none =>
            rw [ha1, ha2] at h
            simp at h
          | some a2 =>
            cases ha3 : memory.get? (p + 3) with
            | none =>
              rw [ha1, ha2, ha3] at h
              simp at h
            | some a3 =>
              cases hrec : Decomp.decompileFrom memory (p + 4) with
              | none =>
                rw [ha1, ha2, ha3, hrec] at h
                simp at h
              | some rest1 =>
                rw [ha1, ha2, ha3, hrec] at h
                simp only [Option.some.injEq] at h
                subst h
                intro l hl
                rcases List.mem_cons.mp hl with rfl | hl'
                · refine ⟨p, "add\t" ++ toString a1 ++ "\t" ++ toString a2 ++ "\t" ++ toString a3, ?_⟩
                  rw [show (":\tadd\t" : String) = ":\t" ++ "add\t" from rfl]
                  simp only [String.append_assoc]
                · exact ih (p + 4) rest1 (by omega) hrec l hl'
      · -- opcode 10: mul
        cases ha1 : memory.get? (p + 1) with
        | none =>
          rw [ha1] at h
          simp at h
        | some a1 =>
          cases ha2 : memory.get? (p + 2) with
          | none =>
            rw [ha1, ha2] at h
            simp at h
          | some a2 =>
            cases ha3 : memory.get? (p + 3) with
            | none =>
              rw [ha1, ha2, ha3] at h
              simp at h
            | some a3 =>
              cases hrec : Decomp.decompileFrom memory (p + 4) with
              | none =>
                rw [ha1, ha2, ha3, hrec] at h
                simp at h
              | some rest1 =>
                rw [ha1, ha2, ha3, hrec] at h
                simp only [Option.some.injEq] at h
                subst h
                intro l hl
                rcases List.mem_cons.mp hl with rfl | hl'
                · refine ⟨p, "mul\t" ++ toString a1 ++ "\t" ++ toString a2 ++ "\t" ++ toString a3, ?_⟩
                  rw [show (":\tmul\t" : String) = ":\t" ++ "mul\t" from rfl]
                  simp only [String.append_assoc]
                · exact ih (p + 4) rest1 (by omega) hrec l hl'
      · -- opcode 11: mod
        cases ha1 : memory.get? (p + 1) with
        | none =>
          rw [ha1] at h
          simp at h
        | some a1 =>
          cases ha2 : memory.get? (p + 2) with
          | none =>
            rw [ha1, ha2] at h
            simp at h
          | some a2 =>
            cases ha3 : memory.get? (p + 3) with
            | none =>
              rw [ha1, ha2, ha3] at h
              simp at h
            | some a3 =>
              cases hrec : Decomp.decompileFrom memory (p + 4) with
              | none =>
                rw [ha1, ha2, ha3, hrec] at h
                simp at h
              | some rest1 =>
                rw [ha1, ha2, ha3, hrec] at h
                simp only [Option.some.injEq] at h
                subst h
                intro l hl
                rcases List.mem_cons.mp hl with rfl | hl'
                · refine ⟨p, "mod\t" ++ toString a1 ++ "\t" ++ toString a2 ++ "\t" ++ toString a3, ?_⟩
                  rw [show (":\tmod\t" : String) = ":\t" ++ "mod\t" from rfl]
                  simp only [String.append_assoc]
                · exact ih (p + 4) rest1 (by omega) hrec l hl'
      · -- opcode 12: and
        cases ha1 : memory.get? (p + 1) with
        | none =>
          rw [ha1] at h
          simp at h
        | some a1 =>
          cases ha2 : memory.get? (p + 2) with
          | none =>
            rw [ha1, ha2] at h
            simp at h
          | some a2 =>
            cases ha3 : memory.get? (p + 3) with
            | none =>
              rw [ha1, ha2, ha3] at h
              simp at h
            | some a3 =>
              cases hrec : Decomp.decompileFrom memory (p + 4) with
              | none =>
                rw [ha1, ha2, ha3, hrec] at h
                simp at h
              | some rest1 =>
                rw [ha1, ha2, ha3, hrec] at h
                simp only [Option.some.injEq] at h
                subst h
                intro l hl
                rcases List.mem_cons.mp hl with rfl | hl'
                · refine ⟨p, "and\t" ++ toString a1 ++ "\t" ++ toString a2 ++ "\t" ++ toString a3, ?_⟩
                  rw [show (":\tand\t" : String) = ":\t" ++ "and\t" from rfl]
                  simp only [String.append_assoc]
                · exact ih (p + 4) rest1 (by omega) hrec l hl'
      · -- opcode 13: or
        cases ha1 : memory.get? (p + 1) with
        | none =>
          rw [ha1] at h
          simp at h
        | some a1 =>
          cases ha2 : memory.get? (p + 2) with
          | none =>
            rw [ha1, ha2] at h
            simp at h
          | some a2 =>
            cases ha3 : memory.get? (p + 3) with
            | none =>
              rw [ha1, ha2, ha3] at h
              simp at h
            | some a3 =>
              cases hrec : Decomp.decompileFrom memory (p + 4) with
              | none =>
                rw [ha1, ha2, ha3, hrec] at h
                simp at h
              | some rest1 =>
                rw [ha1, ha2, ha3, hrec] at h
                simp only [Option.some.injEq] at h
                subst h
                intro l hl
                rcases List.mem_cons.mp hl with rfl | hl'
                · refine ⟨p, "or\t" ++ toString a1 ++ "\t" ++ toString a2 ++ "\t" ++ toString a3, ?_⟩
                  rw [show (":\tor\t" : String) = ":\t" ++ "or\t" from rfl]
                  simp only [String.append_assoc]
                · exact ih (p + 4) rest1 (by omega) hrec l hl'
      · -- opcode 14: not
        cases ha1 : memory.get? (p + 1) with
        | none =>
          rw [ha1] at h
          simp at h
        | some a1 =>
          cases ha2 : memory.get? (p + 2) with
          | none =>
            rw [ha1, ha2] at h
            simp at h
          | some a2 =>
            cases hrec : Decomp.decompileFrom memory (p + 3) with
            | none =>
              rw [ha1, ha2, hrec] at h
              simp at h
            | some rest1 =>
              rw [ha1, ha2, hrec] at h
              simp only [Option.some.injEq] at h
              subst h
              intro l hl
              rcases List.mem_cons.mp hl with rfl | hl'
              · refine ⟨p, "not\t" ++ toString a1 ++ "\t" ++ toString a2, ?_⟩
                rw [show (":\tnot\t" : String) = ":\t" ++ "not\t" from rfl]
                simp only [String.append_assoc]
              · exact ih (p + 3) rest1 (by omega) hrec l hl'
      · -- opcode 15: rmem
        cases ha1 : memory.get? (p + 1) with
        | none =>
          rw [ha1] at h
          simp at h
        | some a1 =>
          cases ha2 : memory.get? (p + 2) with
          | none =>
            rw [ha1, ha2] at h
            simp at h
          | some a2 =>
            cases hrec : Decomp.decompileFrom memory (p + 3) with
            | none =>
              rw [ha1, ha2, hrec] at h
              simp at h
            | some rest1 =>
              rw [ha1, ha2, hrec] at h
              simp only [Option.some.injEq] at h
              subst h
              intro l hl
              rcases List.mem_cons.mp hl with rfl | hl'
              · refine ⟨p, "rmem\t" ++ toString a1 ++ "\t" ++ toString a2, ?_⟩
                rw [show (":\trmem\t" : String) = ":\t" ++ "rmem\t" from rfl]
                simp only [String.append_assoc]
              · exact ih (p + 3) rest1 (by omega) hrec l hl'
      · -- opcode 16: wmem
        cases ha1 : memory.get? (p + 1) with
        | none =>
          rw [ha1] at h
          simp at h
        | some a1 =>
          cases ha2 : memory.get? (p + 2) with
          | none =>
            rw [ha1, ha2] at h
            simp at h
          | some a2 =>
            cases hrec : Decomp.decompileFrom memory (p + 3) with
            | none =>
              rw [ha1, ha2, hrec] at h
              simp at h
            | some rest1 =>
              rw [ha1, ha2, hrec] at h
              simp only [Option.some.injEq] at h
              subst h
              intro l hl
              rcases List.mem_cons.mp hl with rfl | hl'
              · refine ⟨p, "wmem\t" ++ toString a1 ++ "\t" ++ toString a2, ?_⟩
                rw [show (":\twmem\t" : String) = ":\t" ++ "wmem\t" from rfl]
                simp only [String.append_assoc]
              · exact ih (p + 3) rest1 (by omega) hrec l hl'
      · -- opcode 17: call
        cases ha1 : memory.get? (p + 1) with
        | none =>
          rw [ha1] at h
          simp at h
        | some a1 =>
          cases hrec : Decomp.decompileFrom memory (p + 2) with
          | none =>
            rw [ha1, hrec] at h
            simp at h
          | some rest1 =>
            rw [ha1, hrec] at h
            simp only [Option.some.injEq] at h
            subst h
            intro l hl
            rcases List.mem_cons.mp hl with rfl | hl'
            · refine ⟨p, "call\t" ++ toString a1, ?_⟩
              rw [show (":\tcall\t" : String) = ":\t" ++ "call\t" from rfl]
              simp only [String.append_assoc]
            · exact ih (p + 2) rest1 (by omega) hrec l hl'
      · -- opcode 18: ret
        cases hrec : Decomp.decompileFrom memory (p + 1) with
        | none =>
          rw [hrec] at h
          simp at h
        | some rest1 =>
          rw [hrec] at h
          simp only [Option.some.injEq] at h
          subst h
          intro l hl
          rcases List.mem_cons.mp hl with rfl | hl'
          · refine ⟨p, "ret", ?_⟩
            rw [show (":\tret" : String) = ":\t" ++ "ret" from rfl]
            simp only [String.append_assoc]
          · exact ih (p + 1) rest1 (by omega) hrec l hl'
      · -- opcode 19: out
        cases ha1 : memory.get? (p + 1) with
        | none =>
          rw [ha1] at h
          simp at h
        | some a1 =>
          cases hrec : Decomp.decompileFrom memory (p + 2) with
          | none =>
            rw [ha1, hrec] at h
            simp at h
          | some rest1 =>
            rw [ha1, hrec] at h
            simp only [Option.some.injEq] at h
            subst h
            intro l hl
            rcases List.mem_cons.mp hl with rfl | hl'
            · refine ⟨p, "out\t" ++ toString a1, ?_⟩
              rw [show (":\tout\t" : String) = ":\t" ++ "out\t" from rfl]
              simp only [String.append_assoc]
            · exact ih (p + 2) rest1 (by omega) hrec l hl'
      · -- opcode 20: in
        cases ha1 : memory.get? (p + 1) with
        | none =>
          rw [ha1] at h
          simp at h
        | some a1 =>
          cases hrec : Decomp.decompileFrom memory (p + 2) with
          | none =>
            rw [ha1, hrec] at h
            simp at h
          | some rest1 =>
            rw [ha1, hrec] at h
            simp only [Option.some.injEq] at h
            subst h
            intro l hl
            rcases List.mem_cons.mp hl with rfl | hl'
            · refine ⟨p, "in\t" ++ toString a1, ?_⟩
              rw [show (":\tin\t" : String) = ":\t" ++ "in\t" from rfl]
              simp only [String.append_assoc]
            · exact ih (p + 2) rest1 (by omega) hrec l hl'
      · -- opcode 21: noop
        cases hrec : Decomp.decompileFrom memory (p + 1) with
        | none =>
          rw [hrec] at h
          simp at h
        | some rest1 =>
          rw [hrec] at h
          simp only [Option.some.injEq] at h
          subst h
          intro l hl
          rcases List.mem_cons.mp hl with rfl | hl'
          · refine ⟨p, "noop", ?_⟩
            rw [show (":\tnoop" : String) = ":\t" ++ "noop" from rfl]
            simp only [String.append_assoc]
          · exact ih (p + 1) rest1 (by omega) hrec l hl'
      · -- unknown opcode word
        cases hrec : Decomp.decompileFrom memory (p + 1) with
        | none =>
          rw [hrec] at h
          simp at h
        | some rest1 =>
          rw [hrec] at h
          simp only [Option.some.injEq] at h
          subst h
          intro l hl
          rcases List.mem_cons.mp hl with rfl | hl'
          · exact ⟨p, _, rfl⟩
          · have hle1 : memory.length - (p + 1) ≤ n := by
              clear * - hle hp
              omega
            exact ih (p + 1) rest1 hle1 hrec l hl'

/-- C9 (amended): every line the disassembler emits begins with the
decimal address followed by `:` and then a tab -- the trailing `:` IS
emitted, so the address prefixes of its output already parse as the
assembler's pointer labels. -/
theorem decompile_lines_addr_colon_tab {memory : List Nat} {p : Nat} {lines : List String}
    (h : Decomp.decompileFrom memory p = some lines) :
    ∀ l ∈ lines, ∃ (a : Nat) (rest : String), l = toString a ++ ":\t" ++ rest :=
  decompileFrom_shape_aux memory (memory.length - p) p lines (Nat.le_refl _) h

/-- C9 (amended, witness): the single line disassembled from the image
`[0]` has the address-colon-tab shape. -/
theorem decompile_lines_addr_colon_tab_witness :
    ∃ (a : Nat) (rest : String), "0:\thalt" = toString a ++ ":\t" ++ rest :=
  @decompile_lines_addr_colon_tab [0] 0 ["0:\thalt"]
    (by simp [Decomp.decompileFrom]; rfl) "0:\thalt" (by simp)

end Synacor
